import Mathlib

/-!
# End User Messaging SMS (pinpointsmsvoicev2): phone pool and protect configuration

A shallow embedding of `internal/service/pinpointsmsvoicev2/phone_pool.go` and
`protect_configuration.go`, followed by the properties established about it.

Conventions of the embedding

* A Go `string` is a sequence of bytes (`GoString`).
* A Go result pair `(value, error)` of which exactly one component is set is an
  `Except`; a pair that can carry both is kept as a pair with an `Option` error.
* The remote service is a record of functions (`Client`).  Calls whose answer can
  change from one call to the next (the describe calls made while polling) take
  the number of the call as an argument.
* Polling functions also report how many status fetches they made.
-/

namespace PinpointSMSVoiceV2

/-! ## Strings -/

/-- A Go string: a finite sequence of bytes. -/
abbrev GoString := List UInt8

/-- The bytes of an ASCII string constant of the source. -/
def str (s : String) : GoString := s.data.map (fun c => c.toNat.toUInt8)

/-! ## Errors and diagnostics -/

/-- An error returned by a call of the service client.
`errs.IsA[*awstypes.ResourceNotFoundException]` holds exactly for the first constructor. -/
inductive SdkError where
  | ResourceNotFoundException (message : GoString)
  | other (message : GoString)
  deriving DecidableEq, Repr

/-- The test `errs.IsA[*awstypes.ResourceNotFoundException](err)` on a client error. -/
def IsResourceNotFoundException : SdkError → Bool
  | .ResourceNotFoundException _ => true
  | .other _ => false

/-- The error values that occur in this package. -/
inductive Err where
  /-- An error of a client call, handed on as it is. -/
  | sdk (e : SdkError)
  /-- The value `&retry.NotFoundError{LastError: err, LastRequest: input}`. -/
  | NotFoundError (LastError : SdkError)
  /-- The error of `tfresource.AssertSingleValueResult` on an empty result. -/
  | EmptyResultError
  /-- The error of `tfresource.AssertSingleValueResult` on more than one result. -/
  | TooManyResultsError (count : Nat)
  /-- The poll saw a status that is neither pending nor a target. -/
  | UnexpectedStateError (State : GoString)
  /-- The poll was still pending when the timeout elapsed. -/
  | TimeoutError
  /-- The value `errors.New(text)`. -/
  | errorString (text : GoString)
  deriving DecidableEq, Repr

/-- Modelled from the spec: `tfresource.NotFound` is not part of the sources at hand.
Section 7 names the kind NotFound for a remote resource that is absent; the
classification holds for the `retry.NotFoundError` built by the finders and for the
empty result of a lookup, and for no other error. -/
def NotFound : Err → Bool
  | .NotFoundError _ => true
  | .EmptyResultError => true
  | _ => false

/-- Severity of a diagnostic. -/
inductive Severity where
  | Error
  | Warning
  deriving DecidableEq, Repr

/-- A diagnostic of a response.  The detail text of a diagnostic made from an error
is `err.Error()`; the embedding keeps the error value itself. -/
inductive Diagnostic where
  /-- A diagnostic `Diagnostics.AddError(summary, err.Error())`. -/
  | AddError (summary : GoString) (err : Err)
  /-- A diagnostic `fwdiag.NewResourceNotFoundWarningDiagnostic(err)`. -/
  | ResourceNotFoundWarning (err : Err)
  /-- A diagnostic produced by the host framework (decoding a plan or state, flattening). -/
  | framework (severity : Severity) (summary : GoString)
  deriving DecidableEq, Repr

/-- Whether a diagnostic has error severity. -/
def Diagnostic.isError : Diagnostic → Bool
  | .AddError _ _ => true
  | .ResourceNotFoundWarning _ => false
  | .framework s _ => decide (s = Severity.Error)

/-- The diagnostics of a response, oldest first. -/
abbrev Diagnostics := List Diagnostic

/-- The method `Diagnostics.HasError()`. -/
def HasError (ds : Diagnostics) : Bool := ds.any Diagnostic.isError

/-! ## Remote data -/

/-- The fields of `awstypes.PoolInformation` that this package reads. -/
structure PoolInformation where
  PoolId : GoString
  PoolArn : GoString
  Status : GoString
  deriving DecidableEq, Repr

/-- The constant `awstypes.PoolStatusCreating`. -/
def PoolStatusCreating : GoString := str "CREATING"

/-- The constant `awstypes.PoolStatusDeleting`. -/
def PoolStatusDeleting : GoString := str "DELETING"

/-- The constant `awstypes.NumberStatusActive`, the target of `waitPhonePoolActive`. -/
def NumberStatusActive : GoString := str "ACTIVE"

/-- The fields of `awstypes.ProtectConfigurationInformation` that matter here. -/
structure ProtectConfigurationInformation where
  ProtectConfigurationId : GoString
  ProtectConfigurationArn : GoString
  deriving DecidableEq, Repr

/-- The fields of `awstypes.PhoneNumberInformation` that this package reads. -/
structure PhoneNumberInformation where
  IsoCountryCode : Option GoString
  deriving DecidableEq, Repr

/-- The input `pinpointsmsvoicev2.DescribePoolsInput`. -/
structure DescribePoolsInput where
  PoolIds : List GoString
  deriving DecidableEq, Repr

/-- The input `pinpointsmsvoicev2.DescribeProtectConfigurationsInput`. -/
structure DescribeProtectConfigurationsInput where
  ProtectConfigurationIds : List GoString
  deriving DecidableEq, Repr

/-- The input of `CreatePool`; the client token (a fresh random value) and the tags
(taken from the context) are left out. -/
structure CreatePoolInput where
  DeletionProtectionEnabled : Option Bool
  IsoCountryCode : GoString
  OriginationIdentity : GoString
  MessageType : GoString
  deriving DecidableEq, Repr

/-- The output of `CreatePool`; both fields are pointers. -/
structure CreatePoolOutput where
  PoolId : Option GoString
  PoolArn : Option GoString
  deriving DecidableEq, Repr

/-- The input of `AssociateOriginationIdentity` without the client token. -/
structure AssociateOriginationIdentityInput where
  IsoCountryCode : GoString
  OriginationIdentity : GoString
  PoolId : Option GoString
  deriving DecidableEq, Repr

/-- The input of `UpdatePool`. -/
structure UpdatePoolInput where
  DeletionProtectionEnabled : Option Bool
  OptOutListName : Option GoString
  PoolId : Option GoString
  SelfManagedOptOutsEnabled : Option Bool
  SharedRoutesEnabled : Option Bool
  TwoWayChannelArn : Option GoString
  TwoWayChannelRole : Option GoString
  TwoWayEnabled : Option Bool
  deriving DecidableEq, Repr

/-- The input of `DeletePool`. -/
structure DeletePoolInput where
  PoolId : Option GoString
  deriving DecidableEq, Repr

/-- The input of `DeleteProtectConfiguration`. -/
structure DeleteProtectConfigurationInput where
  ProtectConfigurationId : Option GoString
  deriving DecidableEq, Repr

/-- The service as this package reaches it through `conn`.  A paginated describe call
is given as the list of answers to the successive `NextPage` calls; its first
argument is the number of the lookup (counted from 0 within one operation), so that
a pool can change its status between two polls. -/
structure Client where
  DescribePools : Nat → DescribePoolsInput → List (Except SdkError (List PoolInformation))
  DescribeProtectConfigurations :
    Nat → DescribeProtectConfigurationsInput →
      List (Except SdkError (List ProtectConfigurationInformation))
  CreatePool : CreatePoolInput → Except SdkError CreatePoolOutput
  AssociateOriginationIdentity : AssociateOriginationIdentityInput → Option SdkError
  UpdatePool : UpdatePoolInput → Option SdkError
  DeletePool : DeletePoolInput → Option SdkError
  DeleteProtectConfiguration : DeleteProtectConfigurationInput → Option SdkError
  /-- The finder `findPhoneNumberByID` of the phone number resource, which is not
  part of the sources at hand; it is taken as given. -/
  findPhoneNumberByID : GoString → Except Err PhoneNumberInformation

/-! ## Finders -/

/-- Modelled from the spec: `tfresource.AssertSingleValueResult` is not part of the
sources at hand.  It returns the only element of a result, and an error for an
empty result (the resource is absent, section 7) and for more than one element. -/
def AssertSingleValueResult {α : Type} : List α → Except Err α
  | [] => .error .EmptyResultError
  | [a] => .ok a
  | a :: b :: rest => .error (.TooManyResultsError (a :: b :: rest).length)

/-- The loop of `findPhonePools` over the pages still to come, with the pools
collected so far. -/
def findPhonePoolsPages :
    List (Except SdkError (List PoolInformation)) → List PoolInformation →
      Except Err (List PoolInformation)
  | [], output => .ok output
  | .error err :: _, _ =>
    if IsResourceNotFoundException err then .error (.NotFoundError err) else .error (.sdk err)
  | .ok page :: pages, output => findPhonePoolsPages pages (output ++ page)

/-- The function `findPhonePools`; `n` is the number of the lookup. -/
def findPhonePools (conn : Client) (n : Nat) (input : DescribePoolsInput) :
    Except Err (List PoolInformation) :=
  findPhonePoolsPages (conn.DescribePools n input) []

/-- The function `findPhonePool`. -/
def findPhonePool (conn : Client) (n : Nat) (input : DescribePoolsInput) :
    Except Err PoolInformation :=
  match findPhonePools conn n input with
  | .error err => .error err
  | .ok output => AssertSingleValueResult output

/-- The function `findPhonePoolById`. -/
def findPhonePoolById (conn : Client) (n : Nat) (id : GoString) : Except Err PoolInformation :=
  findPhonePool conn n { PoolIds := [id] }

/-! ## Polling -/

/-- A value of type `interface{}` as a refresh function returns it. -/
inductive Iface where
  | nil
  | PoolInformation (output : PoolInformation)
  | other (typeName : GoString)
  deriving DecidableEq, Repr

/-- The three results of a `retry.StateRefreshFunc`. -/
structure RefreshResult where
  Result : Iface
  State : GoString
  Err : Option Err
  deriving DecidableEq, Repr

/-- The function `statusPhonePool`: the refresh function for pool `id`; its argument is
the number of the fetch. -/
def statusPhonePool (conn : Client) (id : GoString) : Nat → RefreshResult := fun n =>
  match findPhonePoolById conn n id with
  | .error err =>
    if NotFound err then
      { Result := .nil, State := [], Err := none }
    else
      { Result := .nil, State := [], Err := some err }
  | .ok output => { Result := .PoolInformation output, State := output.Status, Err := none }

/-- The fields of `retry.StateChangeConf` that the waits set.  Time is not modelled:
`Timeout` counts the status fetches that can be started before the timeout elapses. -/
structure StateChangeConf where
  Pending : List GoString
  Target : List GoString
  Refresh : Nat → RefreshResult
  Timeout : Nat

/-- What a poll returns, together with the number of fetches it made. -/
structure WaitOutcome where
  Result : Iface
  Err : Option Err
  Fetches : Nat
  deriving DecidableEq, Repr

/-- Modelled from the spec: the polling loop of `retry.StateChangeConf` is not part of
the sources at hand.  Section 4.1: fetch repeatedly; an error of the fetch is
returned at once; a pending status continues the polling; any other status stops
it, with success if it is a target status (an absent resource satisfies an empty
target set) and with an unexpected-state error otherwise; the poll stops with a
timeout error when the timeout elapses while the status is still pending.  Success
returns the resource last observed, every failure returns no resource.  The spec
names NotFound among the errors without saying when the reconciler returns it; here
a status that comes without a resource is a status like any other, except that it
satisfies an empty target set.
`remaining` is the number of fetches still allowed, `made` the number made so far. -/
def waitLoop (conf : StateChangeConf) : Nat → Nat → WaitOutcome
  | 0, made => { Result := .nil, Err := some .TimeoutError, Fetches := made }
  | remaining + 1, made =>
    let r := conf.Refresh made
    match r.Err with
    | some err => { Result := .nil, Err := some err, Fetches := made + 1 }
    | none =>
      if r.State ∈ conf.Pending then
        waitLoop conf remaining (made + 1)
      else if r.State ∈ conf.Target ∨ (r.Result = .nil ∧ conf.Target = []) then
        { Result := r.Result, Err := none, Fetches := made + 1 }
      else
        { Result := .nil, Err := some (.UnexpectedStateError r.State), Fetches := made + 1 }

/-- Modelled from the spec: the method `WaitForStateContext` of `retry.StateChangeConf`,
the status-poll reconciler of section 4.1, started with no fetch made. -/
def WaitForStateContext (conf : StateChangeConf) : WaitOutcome :=
  waitLoop conf conf.Timeout 0

/-- What a wait of this package returns, together with the number of fetches made. -/
structure WaitResult where
  Output : Option PoolInformation
  Err : Option Err
  Fetches : Nat
  deriving DecidableEq, Repr

/-- The end of both waits: the type assertion on the result of the poll
(`if output, ok := outputRaw.(*awstypes.PoolInformation); ok` and what follows). -/
def poolInformationResult (outputRaw : Iface) (err : Option Err) :
    Option PoolInformation × Option Err :=
  match outputRaw with
  | .PoolInformation output => (some output, err)
  | _ => (none, err)

/-- The configuration that `waitPhonePoolActive` builds. -/
def phonePoolActiveConf (conn : Client) (id : GoString) (timeout : Nat) : StateChangeConf :=
  { Pending := [PoolStatusCreating]
    Target := [NumberStatusActive]
    Refresh := statusPhonePool conn id
    Timeout := timeout }

/-- The function `waitPhonePoolActive`. -/
def waitPhonePoolActive (conn : Client) (id : GoString) (timeout : Nat) : WaitResult :=
  let out := WaitForStateContext (phonePoolActiveConf conn id timeout)
  let res := poolInformationResult out.Result out.Err
  { Output := res.1, Err := res.2, Fetches := out.Fetches }

/-- The configuration that `waitPhonePoolDeleted` builds. -/
def phonePoolDeletedConf (conn : Client) (id : GoString) (timeout : Nat) : StateChangeConf :=
  { Pending := [PoolStatusDeleting]
    Target := []
    Refresh := statusPhonePool conn id
    Timeout := timeout }

/-- The function `waitPhonePoolDeleted`. -/
def waitPhonePoolDeleted (conn : Client) (id : GoString) (timeout : Nat) : WaitResult :=
  let out := WaitForStateContext (phonePoolDeletedConf conn id timeout)
  let res := poolInformationResult out.Result out.Err
  { Output := res.1, Err := res.2, Fetches := out.Fetches }

/-! ## Sender IDs and country codes -/

/-- Whether `s` begins with `sub`. -/
def startsWith : GoString → GoString → Bool
  | _, [] => true
  | [], _ :: _ => false
  | a :: s, b :: sub => a == b && startsWith s sub

/-- The function `strings.Contains`: whether `sub` occurs in `s` at some offset. -/
def Contains : GoString → GoString → Bool
  | [], sub => startsWith [] sub
  | a :: s, sub => startsWith (a :: s) sub || Contains s sub

/-- The function `isOriginationIdentitityASenderID`. -/
def isOriginationIdentitityASenderID (originationIdentity : GoString) : Bool :=
  Contains originationIdentity (str ":sender-id/")

/-- The function `getIsoCountryCodeForSenderIDARN`.  The result is the Go pair
(string, error); `none` stands for the run-time panic of a slice expression that is
out of range. -/
def getIsoCountryCodeForSenderIDARN (id : GoString) : Option (GoString × Option Err) :=
  if !isOriginationIdentitityASenderID id then
    some ([], some (.errorString (str "the origination identity is not a sender ID")))
  else if id.length < 2 then
    none
  else
    some (id.drop (id.length - 2), none)

/-- The function `getIsoCountryCodeForPhoneARN`; `none` stands for the run-time panic
of dereferencing a nil `IsoCountryCode`. -/
def getIsoCountryCodeForPhoneARN (conn : Client) (id : GoString) :
    Option (Except Err GoString) :=
  match conn.findPhoneNumberByID id with
  | .error err => some (.error err)
  | .ok out =>
    match out.IsoCountryCode with
    | none => none
    | some code => some (.ok code)

/-! ## Resource models -/

/-- A value of the host framework: null, unknown or known. -/
inductive Attr (α : Type) where
  | null
  | unknown
  | known (v : α)
  deriving DecidableEq, Repr

/-- The method `IsNull`. -/
def Attr.IsNull {α : Type} : Attr α → Bool
  | .null => true
  | _ => false

/-- The method `ValueString`: the known value, the empty string otherwise. -/
def Attr.ValueString : Attr GoString → GoString
  | .known v => v
  | _ => []

/-- The method `ValueStringPointer`: nil for null, otherwise a pointer to `ValueString`. -/
def Attr.ValueStringPointer : Attr GoString → Option GoString
  | .null => none
  | .unknown => some []
  | .known v => some v

/-- The digit of Go's `lowerhex` for a number below 16. -/
def lowerhex (d : UInt8) : UInt8 :=
  if d < 10 then 48 + d else 87 + d

/-- What Go's `%q` writes for one byte between the quotes: the double quote and the
backslash get a backslash in front, the control bytes their escape (`\a`, `\b`,
`\t`, `\n`, `\v`, `\f`, `\r`, otherwise `\x` and two hex digits), every other byte
stands for itself.  Bytes from 128 on are kept as they are, which is what Go does
for the bytes of printable characters; its escapes for invalid and for
non-printing characters are not modelled. -/
def quoteByte (b : UInt8) : GoString :=
  if b = 34 then [92, 34]
  else if b = 92 then [92, 92]
  else if b = 7 then [92, 97]
  else if b = 8 then [92, 98]
  else if b = 12 then [92, 102]
  else if b = 10 then [92, 110]
  else if b = 13 then [92, 114]
  else if b = 9 then [92, 116]
  else if b = 11 then [92, 118]
  else if b < 32 ∨ b = 127 then [92, 120, lowerhex (b / 16), lowerhex (b % 16)]
  else [b]

/-- The method `String` of a framework string value (also of an ARN value), which is
not part of the sources at hand: `<null>`, `<unknown>`, and for a known value
`fmt.Sprintf("%q", value)`, the value between double quotes. -/
def Attr.String : Attr GoString → GoString
  | .null => str "<null>"
  | .unknown => str "<unknown>"
  | .known v => [34] ++ (v.map quoteByte).flatten ++ [34]

/-- The strings `Elements()[i].String()` of a set of ARN values, which are what
`phonePoolResourceModel.OriginationIdentities` holds. -/
def originationIdentityStrings (elements : List (Attr GoString)) : List GoString :=
  elements.map Attr.String

/-- Modelled from the spec: `fwflex.BoolFromFramework` and `fwflex.StringFromFramework`
are not part of the sources at hand; they turn a framework value into a pointer,
which is nil unless the value is known. -/
def FromFramework {α : Type} : Attr α → Option α
  | .known v => some v
  | _ => none

/-- Modelled from the spec: `fwflex.StringToFramework` is not part of the sources at
hand; it turns a pointer into a framework value, null for nil. -/
def StringToFramework : Option GoString → Attr GoString
  | none => .null
  | some v => .known v

/-- The function `aws.ToString`: the string pointed to, the empty string for nil. -/
def ToString : Option GoString → GoString
  | none => []
  | some v => v

/-- The value of the `timeouts` block: the configured durations, counted like
`StateChangeConf.Timeout`. -/
structure TimeoutsValue where
  Create : Option Nat
  Update : Option Nat
  Delete : Option Nat
  deriving DecidableEq, Repr

/-- The struct `phonePoolResourceModel`.  `OriginationIdentities` holds the strings of
the elements of the set, in the order of `Elements()`. -/
structure phonePoolResourceModel where
  ID : Attr GoString
  PhonePoolARN : Attr GoString
  DeletionProtectionEnabled : Attr Bool
  OptOutListName : Attr GoString
  SelfManagedOptOutsEnabled : Attr Bool
  SharedRoutesEnabled : Attr Bool
  TwoWayChannelARN : Attr GoString
  TwoWayChannelRole : Attr GoString
  TwoWayEnabled : Attr Bool
  MessageType : Attr GoString
  Timeouts : TimeoutsValue
  OriginationIdentities : List GoString
  Tags : Attr (List (GoString × GoString))
  TagsAll : Attr (List (GoString × GoString))
  deriving DecidableEq, Repr

/-- The struct `protectConfigurationResourceModel`. -/
structure protectConfigurationResourceModel where
  ID : Attr GoString
  ProtectConfigurationARN : Attr GoString
  DeletionProtectionEnabled : Attr Bool
  Tags : Attr (List (GoString × GoString))
  TagsAll : Attr (List (GoString × GoString))
  deriving DecidableEq, Repr

/-- A plan or a state of the host framework as `Get` shows it: the diagnostics of
the decoding and the decoded model. -/
structure Tfsdk (α : Type) where
  diags : Diagnostics
  data : α
  deriving DecidableEq, Repr

/-- A remote call, as recorded in the order the calls are made. -/
inductive Call where
  | findPhoneNumberByID (id : GoString)
  | CreatePool (input : CreatePoolInput)
  | DescribePools (input : DescribePoolsInput)
  | AssociateOriginationIdentity (input : AssociateOriginationIdentityInput)
  | UpdatePool (input : UpdatePoolInput)
  | DeletePool (input : DeletePoolInput)
  | DescribeProtectConfigurations (input : DescribeProtectConfigurationsInput)
  | DeleteProtectConfiguration (input : DeleteProtectConfigurationInput)
  deriving DecidableEq, Repr

/-- A response of a handler: its diagnostics, its state (`none` when the resource is
not in the state) and the remote calls made so far.  The host framework hands a
handler a response without diagnostics, whose state is empty for `Create` and the
prior state of the request for `Read` and `Delete`. -/
structure Response (α : Type) where
  Diagnostics : Diagnostics
  State : Option (Tfsdk α)
  Calls : List Call
  deriving DecidableEq, Repr

/-- The method `State.Set`: the state becomes one that decodes to `data`. -/
def Response.Set {α : Type} (response : Response α) (data : α) : Response α :=
  { response with State := some { diags := [], data := data } }

/-- The method `State.RemoveResource`. -/
def Response.RemoveResource {α : Type} (response : Response α) : Response α :=
  { response with State := none }

/-- The method `Diagnostics.AddError` with the detail `err.Error()`. -/
def Response.AddError {α : Type} (response : Response α) (summary : GoString) (err : Err) :
    Response α :=
  { response with Diagnostics := response.Diagnostics ++ [.AddError summary err] }

/-- The method `Diagnostics.Append`. -/
def Response.Append {α : Type} (response : Response α) (ds : List Diagnostic) : Response α :=
  { response with Diagnostics := response.Diagnostics ++ ds }

/-- Records remote calls. -/
def Response.call {α : Type} (response : Response α) (cs : List Call) : Response α :=
  { response with Calls := response.Calls ++ cs }

/-- Functions of the host framework and of the rest of the provider that the handlers
call and that are not part of the sources at hand; they are taken as given. -/
structure Host where
  /-- The call `fwflex.Flatten(ctx, out, &data)` for a pool. -/
  FlattenPool :
    Option PoolInformation → phonePoolResourceModel → Diagnostics × phonePoolResourceModel
  /-- The call `fwflex.Flatten(ctx, out, &data)` for a protect configuration. -/
  FlattenProtectConfiguration :
    ProtectConfigurationInformation → protectConfigurationResourceModel →
      Diagnostics × protectConfigurationResourceModel
  /-- The method `InitFromID` of the protect configuration model. -/
  InitFromID : protectConfigurationResourceModel → Option Err × protectConfigurationResourceModel

/-- The struct `phonePoolResource`: the client of `r.Meta()` and the default timeouts
set by `newPhonePoolResource`. -/
structure phonePoolResource where
  conn : Client
  DefaultCreateTimeout : Nat
  DefaultUpdateTimeout : Nat
  DefaultDeleteTimeout : Nat

/-- The method `CreateTimeout`: the configured create timeout, the default without one. -/
def phonePoolResource.CreateTimeout (r : phonePoolResource) (timeouts : TimeoutsValue) : Nat :=
  timeouts.Create.getD r.DefaultCreateTimeout

/-- The struct `protectConfigurationResource`. -/
structure protectConfigurationResource where
  conn : Client

/-! ## Phone pool handlers -/

/-- A request of the host framework to create: the plan. -/
structure CreateRequest where
  Plan : Tfsdk phonePoolResourceModel

/-- A request of the host framework to read or to delete a phone pool: the prior state. -/
structure StateRequest (α : Type) where
  State : Tfsdk α

/-- The loop of `Create` over `data.OriginationIdentities.Elements()`.  The result is
the response so far and whether the handler goes on after the loop (`true`) or has
returned inside it (`false`); `none` stands for a run-time panic. -/
def associateOriginationIdentities (conn : Client) (data : phonePoolResourceModel)
    (createOriginationIdentity : GoString) :
    List GoString → Response phonePoolResourceModel →
      Option (Bool × Response phonePoolResourceModel)
  | [], response => some (true, response)
  | originationIdentity :: rest, response =>
    if originationIdentity ≠ createOriginationIdentity then
      let countryCode : Option (Except (Response phonePoolResourceModel)
          (GoString × Response phonePoolResourceModel)) :=
        if isOriginationIdentitityASenderID createOriginationIdentity then
          match getIsoCountryCodeForSenderIDARN originationIdentity with
          | none => none
          | some (countryCode, _) => some (.ok (countryCode, response))
        else
          let response := response.call [.findPhoneNumberByID originationIdentity]
          match getIsoCountryCodeForPhoneARN conn originationIdentity with
          | none => none
          | some (.error err) =>
            some (.error
              (response.AddError (str "Error getting ISO country code for phone ARN") err))
          | some (.ok countryCode) => some (.ok (countryCode, response))
      match countryCode with
      | none => none
      | some (.error response) => some (false, response)
      | some (.ok (countryCode, response)) =>
        let input : AssociateOriginationIdentityInput :=
          { IsoCountryCode := countryCode
            OriginationIdentity := originationIdentity
            PoolId := data.ID.ValueStringPointer }
        let response := response.call [.AssociateOriginationIdentity input]
        match conn.AssociateOriginationIdentity input with
        | some err =>
          some (false,
            response.AddError
              (str "associating origination identity (" ++ originationIdentity ++
                str ") to End User Messaging SMS Phone Pool (" ++ data.ID.ValueString ++ str ")")
              (.sdk err))
        | none => associateOriginationIdentities conn data createOriginationIdentity rest response
    else
      associateOriginationIdentities conn data createOriginationIdentity rest response

/-- The part of `Create` after the pool has become active: the loop over the
identities, the update of the pool, the flattening and the setting of the state. -/
def createAfterWait (host : Host) (conn : Client) (data : phonePoolResourceModel)
    (createOriginationIdentity : GoString) (out : Option PoolInformation)
    (response : Response phonePoolResourceModel) : Option (Response phonePoolResourceModel) :=
  match associateOriginationIdentities conn data createOriginationIdentity
      data.OriginationIdentities response with
  | none => none
  | some (false, response) => some response
  | some (true, response) =>
    let updated : Except (Response phonePoolResourceModel) (Response phonePoolResourceModel) :=
      if !data.DeletionProtectionEnabled.IsNull || !data.OptOutListName.IsNull ||
          !data.ID.IsNull || !data.SelfManagedOptOutsEnabled.IsNull ||
          !data.SharedRoutesEnabled.IsNull || !data.TwoWayChannelARN.IsNull ||
          !data.TwoWayChannelRole.IsNull || !data.TwoWayEnabled.IsNull then
        let input : UpdatePoolInput :=
          { DeletionProtectionEnabled := FromFramework data.DeletionProtectionEnabled
            OptOutListName := FromFramework data.OptOutListName
            PoolId := FromFramework data.ID
            SelfManagedOptOutsEnabled := FromFramework data.SelfManagedOptOutsEnabled
            SharedRoutesEnabled := FromFramework data.SharedRoutesEnabled
            TwoWayChannelArn := FromFramework data.TwoWayChannelARN
            TwoWayChannelRole := FromFramework data.TwoWayChannelRole
            TwoWayEnabled := FromFramework data.TwoWayEnabled }
        let response := response.call [.UpdatePool input]
        match conn.UpdatePool input with
        | some err =>
          .error (response.AddError
            (str "updating End User Messaging Phone Pool (" ++ data.ID.ValueString ++ str ")")
            (.sdk err))
        | none => .ok response
      else
        .ok response
    match updated with
    | .error response => some response
    | .ok response =>
      let flat := host.FlattenPool out data
      let response := response.Append flat.1
      if HasError response.Diagnostics then
        some response
      else
        some (response.Set flat.2)

/-- The part of `Create` from the call of `CreatePool` on, with the country code of
the first identity at hand. -/
def createWithCountryCode (host : Host) (r : phonePoolResource) (data : phonePoolResourceModel)
    (createOriginationIdentity createCountryCode : GoString)
    (response : Response phonePoolResourceModel) : Option (Response phonePoolResourceModel) :=
  let conn := r.conn
  let input : CreatePoolInput :=
    { DeletionProtectionEnabled := FromFramework data.DeletionProtectionEnabled
      IsoCountryCode := createCountryCode
      OriginationIdentity := createOriginationIdentity
      MessageType := data.MessageType.ValueString }
  let response := response.call [.CreatePool input]
  match conn.CreatePool input with
  | .error err =>
    some (response.AddError
      (str "creating End User Messaging SMS Phone Pool (" ++ data.ID.ValueString ++ str ")")
      (.sdk err))
  | .ok output =>
    let data := { data with
      ID := .known (ToString output.PoolId)
      PhonePoolARN := StringToFramework output.PoolArn }
    let waited := waitPhonePoolActive conn data.ID.ValueString (r.CreateTimeout data.Timeouts)
    let response := response.call
      (List.replicate waited.Fetches (.DescribePools { PoolIds := [data.ID.ValueString] }))
    match waited.Err with
    | some err =>
      some (response.AddError
        (str "waiting for End User Messaging SMS Phone Pool (" ++ data.ID.ValueString ++
          str ") create")
        err)
    | none => createAfterWait host conn data createOriginationIdentity waited.Output response

/-- The method `phonePoolResource.Create`; `none` stands for a run-time panic. -/
def phonePoolResource.Create (host : Host) (r : phonePoolResource) (request : CreateRequest) :
    Option (Response phonePoolResourceModel) :=
  let data := request.Plan.data
  let response : Response phonePoolResourceModel :=
    { Diagnostics := request.Plan.diags, State := none, Calls := [] }
  if HasError response.Diagnostics then
    some response
  else
    let conn := r.conn
    match data.OriginationIdentities with
    | [] => none
    | createOriginationIdentity :: _ =>
      if isOriginationIdentitityASenderID createOriginationIdentity then
        match getIsoCountryCodeForSenderIDARN createOriginationIdentity with
        | none => none
        | some (createCountryCode, _) =>
          createWithCountryCode host r data createOriginationIdentity createCountryCode response
      else
        let response := response.call [.findPhoneNumberByID createOriginationIdentity]
        match getIsoCountryCodeForPhoneARN conn createOriginationIdentity with
        | none => none
        | some (.error err) =>
          some (response.AddError (str "Error getting ISO country code for phone ARN") err)
        | some (.ok createCountryCode) =>
          createWithCountryCode host r data createOriginationIdentity createCountryCode response

/-- The method `phonePoolResource.Read`. -/
def phonePoolResource.Read (host : Host) (r : phonePoolResource)
    (request : StateRequest phonePoolResourceModel) : Response phonePoolResourceModel :=
  let data := request.State.data
  let response : Response phonePoolResourceModel :=
    { Diagnostics := request.State.diags, State := some request.State, Calls := [] }
  if HasError response.Diagnostics then
    response
  else
    let conn := r.conn
    let response := response.call [.DescribePools { PoolIds := [data.ID.ValueString] }]
    match findPhonePoolById conn 0 data.ID.ValueString with
    | .error err =>
      if NotFound err then
        (response.Append [.ResourceNotFoundWarning err]).RemoveResource
      else
        response.AddError
          (str "reading End User Messaging SMS Phone Pool (" ++ data.ID.ValueString ++ str ")")
          err
    | .ok out =>
      let flat := host.FlattenPool (some out) data
      let response := response.Append flat.1
      if HasError response.Diagnostics then
        response
      else
        response.Set flat.2

/-- The method `phonePoolResource.Delete`. -/
def phonePoolResource.Delete (r : phonePoolResource)
    (request : StateRequest phonePoolResourceModel) : Response phonePoolResourceModel :=
  let data := request.State.data
  let response : Response phonePoolResourceModel :=
    { Diagnostics := request.State.diags, State := some request.State, Calls := [] }
  if HasError response.Diagnostics then
    response
  else
    let conn := r.conn
    let input : DeletePoolInput := { PoolId := data.ID.ValueStringPointer }
    let response := response.call [.DeletePool input]
    match conn.DeletePool input with
    | none => response
    | some err =>
      if IsResourceNotFoundException err then
        response
      else
        response.AddError
          (str "deleting End User Messaging SMS Phone Pool (" ++ data.ID.ValueString ++ str ")")
          (.sdk err)

/-! ## Protect configuration finders and handlers -/

/-- The loop of `findProtectConfigurations` over the pages still to come, with the
configurations collected so far. -/
def findProtectConfigurationsPages :
    List (Except SdkError (List ProtectConfigurationInformation)) →
      List ProtectConfigurationInformation → Except Err (List ProtectConfigurationInformation)
  | [], output => .ok output
  | .error err :: _, _ =>
    if IsResourceNotFoundException err then .error (.NotFoundError err) else .error (.sdk err)
  | .ok page :: pages, output => findProtectConfigurationsPages pages (output ++ page)

/-- The function `findProtectConfigurations`; `n` is the number of the lookup. -/
def findProtectConfigurations (conn : Client) (n : Nat)
    (input : DescribeProtectConfigurationsInput) :
    Except Err (List ProtectConfigurationInformation) :=
  findProtectConfigurationsPages (conn.DescribeProtectConfigurations n input) []

/-- The function `findProtectConfiguration`. -/
def findProtectConfiguration (conn : Client) (n : Nat)
    (input : DescribeProtectConfigurationsInput) : Except Err ProtectConfigurationInformation :=
  match findProtectConfigurations conn n input with
  | .error err => .error err
  | .ok output => AssertSingleValueResult output

/-- The function `findProtectConfigurationByID`. -/
def findProtectConfigurationByID (conn : Client) (n : Nat) (id : GoString) :
    Except Err ProtectConfigurationInformation :=
  findProtectConfiguration conn n { ProtectConfigurationIds := [id] }

/-- The method `protectConfigurationResource.Read`. -/
def protectConfigurationResource.Read (host : Host) (r : protectConfigurationResource)
    (request : StateRequest protectConfigurationResourceModel) :
    Response protectConfigurationResourceModel :=
  let data := request.State.data
  let response : Response protectConfigurationResourceModel :=
    { Diagnostics := request.State.diags, State := some request.State, Calls := [] }
  if HasError response.Diagnostics then
    response
  else
    match host.InitFromID data with
    | (some err, _) => response.AddError (str "parsing resource ID") err
    | (none, data) =>
      let conn := r.conn
      let response := response.call
        [.DescribeProtectConfigurations { ProtectConfigurationIds := [data.ID.ValueString] }]
      match findProtectConfigurationByID conn 0 data.ID.ValueString with
      | .error err =>
        if NotFound err then
          (response.Append [.ResourceNotFoundWarning err]).RemoveResource
        else
          response.AddError
            (str "reading End User Messaging SMS Protect Configuration (" ++
              data.ID.ValueString ++ str ")")
            err
      | .ok out =>
        let flat := host.FlattenProtectConfiguration out data
        let response := response.Append flat.1
        if HasError response.Diagnostics then
          response
        else
          response.Set flat.2

/-- The method `protectConfigurationResource.Delete`. -/
def protectConfigurationResource.Delete (r : protectConfigurationResource)
    (request : StateRequest protectConfigurationResourceModel) :
    Response protectConfigurationResourceModel :=
  let data := request.State.data
  let response : Response protectConfigurationResourceModel :=
    { Diagnostics := request.State.diags, State := some request.State, Calls := [] }
  if HasError response.Diagnostics then
    response
  else
    let conn := r.conn
    let input : DeleteProtectConfigurationInput :=
      { ProtectConfigurationId := data.ID.ValueStringPointer }
    let response := response.call [.DeleteProtectConfiguration input]
    match conn.DeleteProtectConfiguration input with
    | none => response
    | some err =>
      if IsResourceNotFoundException err then
        response
      else
        response.AddError
          (str "deleting End User Messaging SMS Protect Configuration (" ++
            data.ID.ValueString ++ str ")")
          (.sdk err)

/-! ## Update of a phone pool -/

/-- A request of the host framework to update a phone pool: the plan and the prior state. -/
structure UpdateRequest where
  Plan : Tfsdk phonePoolResourceModel
  State : Tfsdk phonePoolResourceModel

/-- The method `Equal` of a framework value: both null, both unknown, or both known
with the same value. -/
def Attr.Equal {α : Type} [DecidableEq α] (a b : Attr α) : Bool :=
  decide (a = b)

/-- The input of `UpdatePool` that `Update` builds from the plan. -/
def updatePoolInput (new : phonePoolResourceModel) : UpdatePoolInput :=
  { DeletionProtectionEnabled := FromFramework new.DeletionProtectionEnabled
    OptOutListName := FromFramework new.OptOutListName
    PoolId := FromFramework new.ID
    SelfManagedOptOutsEnabled := FromFramework new.SelfManagedOptOutsEnabled
    SharedRoutesEnabled := FromFramework new.SharedRoutesEnabled
    TwoWayChannelArn := FromFramework new.TwoWayChannelARN
    TwoWayChannelRole := FromFramework new.TwoWayChannelRole
    TwoWayEnabled := FromFramework new.TwoWayEnabled }

/-- The method `phonePoolResource.Update`.  The response starts with the prior state. -/
def phonePoolResource.Update (r : phonePoolResource) (request : UpdateRequest) :
    Response phonePoolResourceModel :=
  let new := request.Plan.data
  let response : Response phonePoolResourceModel :=
    { Diagnostics := request.Plan.diags, State := some request.State, Calls := [] }
  if HasError response.Diagnostics then
    response
  else
    let old := request.State.data
    let response := response.Append request.State.diags
    if HasError response.Diagnostics then
      response
    else
      let conn := r.conn
      if !new.DeletionProtectionEnabled.Equal old.DeletionProtectionEnabled ||
          !new.OptOutListName.Equal old.OptOutListName ||
          !new.ID.Equal old.ID ||
          !new.SelfManagedOptOutsEnabled.Equal old.SelfManagedOptOutsEnabled ||
          !new.SharedRoutesEnabled.Equal old.SharedRoutesEnabled ||
          !new.TwoWayChannelARN.Equal old.TwoWayChannelARN ||
          !new.TwoWayChannelRole.Equal old.TwoWayChannelRole ||
          !new.TwoWayEnabled.Equal old.TwoWayEnabled then
        let input := updatePoolInput new
        let response := response.call [.UpdatePool input]
        match conn.UpdatePool input with
        | some err =>
          response.AddError
            (str "updating End User Messaging Phone Pool (" ++ new.ID.ValueString ++ str ")")
            (.sdk err)
        | none => response.Set new
      else
        response.Set new

/-! ## Schemas and model tags -/

/-- The attribute names of the package `names`, which is not part of the sources at
hand; the schemas take them as given. -/
structure Names where
  AttrARN : GoString
  AttrID : GoString
  AttrTags : GoString
  AttrTagsAll : GoString
  AttrTimeouts : GoString

/-- The names as the `tfsdk` tags of the model structs spell them. -/
def providerNames : Names :=
  { AttrARN := str "arn"
    AttrID := str "id"
    AttrTags := str "tags"
    AttrTagsAll := str "tags_all"
    AttrTimeouts := str "timeouts" }

/-- What the embedding keeps of a schema attribute: its three flags and the lower
bound of a size validator. -/
structure Attribute where
  Required : Bool
  Optional : Bool
  Computed : Bool
  SizeAtLeast : Option Nat
  deriving DecidableEq, Repr

/-- An attribute that is computed only (`framework.ARNAttributeComputedOnly`,
`framework.IDAttribute`, `tftags.TagsAttributeComputedOnly`). -/
def computedOnly : Attribute :=
  { Required := false, Optional := false, Computed := true, SizeAtLeast := none }

/-- An attribute that is optional and computed, with a default. -/
def optionalComputed : Attribute :=
  { Required := false, Optional := true, Computed := true, SizeAtLeast := none }

/-- An attribute that is optional only (also `tftags.TagsAttribute`). -/
def optionalOnly : Attribute :=
  { Required := false, Optional := true, Computed := false, SizeAtLeast := none }

/-- An attribute that is required. -/
def requiredOnly : Attribute :=
  { Required := true, Optional := false, Computed := false, SizeAtLeast := none }

/-- A schema: its attributes and the names of its blocks, in the order of the source. -/
structure Schema where
  Attributes : List (GoString × Attribute)
  Blocks : List GoString
  deriving DecidableEq, Repr

/-- The names that a schema declares: those of its attributes and of its blocks. -/
def Schema.declared (schema : Schema) : List GoString :=
  schema.Attributes.map (fun a => a.1) ++ schema.Blocks

/-- The method `phonePoolResource.Schema`. -/
def phonePoolResource.Schema (names : Names) : Schema :=
  { Attributes :=
      [ (names.AttrARN, computedOnly),
        (str "deletion_protection_enabled", optionalComputed),
        (str "opt_out_list_name", optionalComputed),
        (str "origination_identities", { requiredOnly with SizeAtLeast := some 1 }),
        (str "self_managed_opt_outs_enabled", optionalComputed),
        (str "shared_routes_enabled", optionalComputed),
        (str "two_way_channel_arn", optionalOnly),
        (str "two_way_channel_role", optionalOnly),
        (str "two_way_channel_enabled", optionalComputed),
        (str "message_type", requiredOnly),
        (names.AttrID, computedOnly),
        (names.AttrTags, optionalOnly),
        (names.AttrTagsAll, computedOnly) ]
    Blocks := [names.AttrTimeouts] }

/-- The `tfsdk` tags of the fields of `phonePoolResourceModel`, in the order of the fields. -/
def phonePoolResourceModelTags : List GoString :=
  [ str "id", str "arn", str "deletion_protection_enabled", str "opt_out_list_name",
    str "self_managed_opt_outs_enabled", str "shared_routes_enabled",
    str "two_way_channel_arn", str "two_way_channel_role", str "two_way_channel_enabled",
    str "message_type", str "timeouts", str "origination_identities", str "tags",
    str "tags_all" ]

/-- The method `protectConfigurationResource.Schema`. -/
def protectConfigurationResource.Schema (names : Names) : Schema :=
  { Attributes :=
      [ (names.AttrARN, computedOnly),
        (str "account_default", optionalComputed),
        (str "deletion_protection_enabled", optionalComputed),
        (names.AttrID, computedOnly),
        (names.AttrTags, optionalOnly),
        (names.AttrTagsAll, computedOnly) ]
    Blocks := [] }

/-- The `tfsdk` tags of the fields of `protectConfigurationResourceModel`, in the order
of the fields. -/
def protectConfigurationResourceModelTags : List GoString :=
  [ str "id", str "arn", str "deletion_protection_enabled", str "tags", str "tags_all" ]

/-- Whether two lists of names hold the same names. -/
def sameNames (a b : List GoString) : Bool :=
  a.all (fun x => b.contains x) && b.all (fun x => a.contains x)

/-- The diagnostics of `Get` on a plan or state of `schema`, decoded into a model struct
whose fields have the given `tfsdk` tags.  The host framework, which is not part of
the sources at hand, decodes an object into a struct only when the names of the
object and the tags of the struct are the same names, and reports an error
diagnostic otherwise. -/
def getDiagnostics (schema : Schema) (tags : List GoString) : Diagnostics :=
  if sameNames schema.declared tags then []
  else [.framework .Error (str "Value Conversion Error")]

/-- A request with a prior state of a protect configuration, as the handlers of the
resource receive it: the state is decoded against the schema of the resource into
`protectConfigurationResourceModel`; `data` is what the struct holds afterwards. -/
def protectConfigurationRequest (names : Names) (data : protectConfigurationResourceModel) :
    StateRequest protectConfigurationResourceModel :=
  { State :=
    { diags := getDiagnostics (protectConfigurationResource.Schema names)
        protectConfigurationResourceModelTags
      data := data } }

/-- A request with a prior state of a phone pool, decoded against the schema of the
resource into `phonePoolResourceModel`. -/
def phonePoolRequest (names : Names) (data : phonePoolResourceModel) :
    StateRequest phonePoolResourceModel :=
  { State :=
    { diags := getDiagnostics (phonePoolResource.Schema names) phonePoolResourceModelTags
      data := data } }

/-! ## The destroy check of the acceptance tests -/

/-- A resource of a Terraform state as the destroy check reads it: `rs.Type` and
`rs.Primary.ID`. -/
structure ResourceState where
  ResourceType : GoString
  ID : GoString
  deriving DecidableEq, Repr

/-- The function returned by `testAccCheckPhonePoolDestroy`, over the resources of the
root module in the order they are visited; `n` is the number of the next lookup and
the result is the error of the check, `none` for nil.  `FindPhonePoolByID` is the
exported name of `findPhonePoolById`. -/
def testAccCheckPhonePoolDestroy (conn : Client) : List ResourceState → Nat → Option Err
  | [], _ => none
  | rs :: rest, n =>
    if rs.ResourceType ≠ str "aws_pinpointsmsvoicev2_configuration_set" then
      testAccCheckPhonePoolDestroy conn rest n
    else
      match findPhonePoolById conn n rs.ID with
      | .error err =>
        if NotFound err then
          testAccCheckPhonePoolDestroy conn rest (n + 1)
        else
          some err
      | .ok _ =>
        some (.errorString
          (str "End User Messaging SMS Configuration Set " ++ rs.ID ++ str " still exists"))

/-! ## Reading the record of remote calls -/

/-- The inputs of the `AssociateOriginationIdentity` calls of a record, in order. -/
def associateInputs (calls : List Call) : List AssociateOriginationIdentityInput :=
  calls.filterMap (fun call =>
    match call with
    | .AssociateOriginationIdentity input => some input
    | _ => none)

/-- The inputs of the `CreatePool` calls of a record, in order. -/
def createPoolInputs (calls : List Call) : List CreatePoolInput :=
  calls.filterMap (fun call =>
    match call with
    | .CreatePool input => some input
    | _ => none)

/-- The country code that the loop of `Create` sends for `originationIdentity` when the
first identity of the plan is `createOriginationIdentity` and no step fails: the
code derived from the ARN when the first identity is a sender ID, the code of the
phone number lookup otherwise. -/
def associateCountryCode (conn : Client) (createOriginationIdentity originationIdentity : GoString) :
    GoString :=
  if isOriginationIdentitityASenderID createOriginationIdentity then
    match getIsoCountryCodeForSenderIDARN originationIdentity with
    | some (countryCode, _) => countryCode
    | none => []
  else
    match conn.findPhoneNumberByID originationIdentity with
    | .ok { IsoCountryCode := some countryCode } => countryCode
    | _ => []

/-! ## Test data -/

/-- A pool that is being created. -/
def creatingPool : PoolInformation :=
  { PoolId := str "pool-1", PoolArn := str "arn:aws:sms-voice:us-east-1:123456789012:pool/pool-1"
    Status := PoolStatusCreating }

/-- The same pool once it is active. -/
def activePool : PoolInformation := { creatingPool with Status := NumberStatusActive }

/-- The same pool while it is being deleted. -/
def deletingPool : PoolInformation := { creatingPool with Status := PoolStatusDeleting }

/-- A client all of whose calls succeed and that shows no pool, to be refined. -/
def quietClient : Client :=
  { DescribePools := fun _ _ => [.ok []]
    DescribeProtectConfigurations := fun _ _ => [.ok []]
    CreatePool := fun _ => .ok { PoolId := some (str "pool-1"), PoolArn := some creatingPool.PoolArn }
    AssociateOriginationIdentity := fun _ => none
    UpdatePool := fun _ => none
    DeletePool := fun _ => none
    DeleteProtectConfiguration := fun _ => none
    findPhoneNumberByID := fun _ => .ok { IsoCountryCode := some (str "US") } }

/-- A client whose pool is CREATING on the first two lookups and ACTIVE from the third on. -/
def activeOnThird : Client :=
  { quietClient with
    DescribePools := fun n _ => if n < 2 then [.ok [creatingPool]] else [.ok [activePool]] }

/-- A client whose pool is CREATING on every lookup. -/
def alwaysCreating : Client :=
  { quietClient with DescribePools := fun _ _ => [.ok [creatingPool]] }

/-- A client whose pool is DELETING on every lookup. -/
def alwaysDeleting : Client :=
  { quietClient with DescribePools := fun _ _ => [.ok [deletingPool]] }

/-- A client whose pool is DELETING on the first lookup and gone from the second on. -/
def goneOnSecond : Client :=
  { quietClient with
    DescribePools := fun n _ =>
      if n < 1 then [.ok [deletingPool]]
      else [.error (.ResourceNotFoundException (str "pool not found"))] }

/-- A client whose describe call fails on its second page with a throttling error. -/
def throttled : Client :=
  { quietClient with
    DescribePools := fun _ _ => [.ok [], .error (.other (str "ThrottlingException"))]
    DescribeProtectConfigurations := fun _ _ => [.error (.other (str "ThrottlingException"))]
    DeletePool := fun _ => some (.other (str "ThrottlingException"))
    DeleteProtectConfiguration := fun _ => some (.other (str "ThrottlingException")) }

/-- A client for which the pool and the protect configuration no longer exist. -/
def goneClient : Client :=
  { quietClient with
    DescribePools := fun _ _ => [.error (.ResourceNotFoundException (str "not found"))]
    DescribeProtectConfigurations := fun _ _ =>
      [.error (.ResourceNotFoundException (str "not found"))]
    DeletePool := fun _ => some (.ResourceNotFoundException (str "not found"))
    DeleteProtectConfiguration := fun _ => some (.ResourceNotFoundException (str "not found")) }

/-- A prior state of the phone pool `pool-1`. -/
def poolState : StateRequest phonePoolResourceModel :=
  { State :=
    { diags := []
      data :=
        { ID := .known (str "pool-1")
          PhonePoolARN := .known (str "arn:aws:sms-voice:us-east-1:123456789012:pool/pool-1")
          DeletionProtectionEnabled := .known false
          OptOutListName := .known (str "Default")
          SelfManagedOptOutsEnabled := .known false
          SharedRoutesEnabled := .known false
          TwoWayChannelARN := .null
          TwoWayChannelRole := .null
          TwoWayEnabled := .known false
          MessageType := .known (str "TRANSACTIONAL")
          Timeouts := { Create := none, Update := none, Delete := none }
          OriginationIdentities := [str "arn:aws:sms-voice:us-east-1:123456789012:sender-id/MYSENDER/GB"]
          Tags := .null
          TagsAll := .known [] } } }

/-- The values of the protect configuration `protect-1`. -/
def protectData : protectConfigurationResourceModel :=
  { ID := .known (str "protect-1")
    ProtectConfigurationARN :=
      .known (str "arn:aws:sms-voice:us-east-1:123456789012:protect-configuration/protect-1")
    DeletionProtectionEnabled := .known false
    Tags := .null
    TagsAll := .known [] }

/-- A phone pool resource on a given client. -/
def poolOn (conn : Client) : phonePoolResource :=
  { conn := conn, DefaultCreateTimeout := 30, DefaultUpdateTimeout := 30, DefaultDeleteTimeout := 30 }

/-- A client whose pool is ACTIVE on every lookup. -/
def alwaysActive : Client :=
  { quietClient with DescribePools := fun _ _ => [.ok [activePool]] }

/-- A host whose flattening leaves the model as it is and whose `InitFromID` succeeds. -/
def plainHost : Host :=
  { FlattenPool := fun _ data => ([], data)
    FlattenProtectConfiguration := fun _ data => ([], data)
    InitFromID := fun data => (none, data) }

/-- The ARN of a sender ID registered for GB. -/
def senderARN : GoString := str "arn:aws:sms-voice:us-east-1:123456789012:sender-id/MYSENDER/GB"

/-- The ARN of a phone number. -/
def phoneARN : GoString :=
  str "arn:aws:sms-voice:us-east-1:123456789012:phone-number/phone-0123456789abcdef"

/-- A plan for a pool of a sender ID and a phone number, the sender ID coming first. -/
def mixedPlan : phonePoolResourceModel :=
  { ID := .unknown
    PhonePoolARN := .unknown
    DeletionProtectionEnabled := .known false
    OptOutListName := .known (str "Default")
    SelfManagedOptOutsEnabled := .known false
    SharedRoutesEnabled := .known false
    TwoWayChannelARN := .null
    TwoWayChannelRole := .null
    TwoWayEnabled := .known false
    MessageType := .known (str "TRANSACTIONAL")
    Timeouts := { Create := none, Update := none, Delete := none }
    OriginationIdentities := [senderARN, phoneARN]
    Tags := .null
    TagsAll := .unknown }


/-- The plan of `mixedPlan` for the configured set of the sender ID and the phone
number: its origination identities are the strings of the two known ARN values. -/
def configuredPlan : phonePoolResourceModel :=
  { mixedPlan with
    OriginationIdentities := originationIdentityStrings [.known senderARN, .known phoneARN] }

/-- A client whose pool is ACTIVE at once and whose phone number lookup knows the
number `phoneARN` (registered for US) and nothing else. -/
def phoneOnlyLookup : Client :=
  { quietClient with
    DescribePools := fun _ _ => [.ok [activePool]]
    findPhoneNumberByID := fun id =>
      if id = phoneARN then .ok { IsoCountryCode := some (str "US") } else .error .EmptyResultError }

/-- The plan of `mixedPlan` with the phone number coming first. -/
def mixedPlanPhoneFirst : phonePoolResourceModel :=
  { mixedPlan with OriginationIdentities := [phoneARN, senderARN] }

/-- A client whose `UpdatePool` call is throttled. -/
def updateThrottled : Client :=
  { quietClient with UpdatePool := fun _ => some (.other (str "ThrottlingException")) }

/-- A plan for `pool-1` that turns deletion protection on. -/
def protectedPlan : phonePoolResourceModel :=
  { poolState.State.data with DeletionProtectionEnabled := .known true }

/-- A plan for `pool-1` that changes the origination identities only. -/
def otherIdentitiesPlan : phonePoolResourceModel :=
  { poolState.State.data with OriginationIdentities := [senderARN, phoneARN] }

/-- The request to update `pool-1` to `protectedPlan`. -/
def protectedUpdate : UpdateRequest :=
  { Plan := { diags := [], data := protectedPlan }
    State := poolState.State }

/-- The request to update `pool-1` to `otherIdentitiesPlan`. -/
def otherIdentitiesUpdate : UpdateRequest :=
  { Plan := { diags := [], data := otherIdentitiesPlan }
    State := poolState.State }

/-! ## Auxiliary facts about the polling loop -/

theorem waitLoop_pending (conf : StateChangeConf) (j : Nat) :
    ∀ remaining made : Nat,
      (∀ k, k < j → (conf.Refresh (made + k)).Err = none ∧
        (conf.Refresh (made + k)).State ∈ conf.Pending) →
      waitLoop conf (remaining + j) made = waitLoop conf remaining (made + j) := by
  induction j with
  | zero => intro remaining made _; rfl
  | succ j ih =>
    intro remaining made h
    have h0 := h 0 (Nat.succ_pos j)
    rw [Nat.add_zero] at h0
    have hstep : waitLoop conf (remaining + j + 1) made = waitLoop conf (remaining + j) (made + 1) := by
      rw [waitLoop]
      simp only [h0.1, h0.2, if_true]
    have hrest := ih remaining (made + 1) (fun k hk => by
      have := h (k + 1) (Nat.succ_lt_succ hk)
      rwa [show made + (k + 1) = made + 1 + k by omega] at this)
    rw [show remaining + (j + 1) = remaining + j + 1 by omega, hstep, hrest,
      show made + 1 + j = made + (j + 1) by omega]

theorem waitLoop_error (conf : StateChangeConf) (remaining made : Nat) (err : Err)
    (h : (conf.Refresh made).Err = some err) :
    waitLoop conf (remaining + 1) made = { Result := .nil, Err := some err, Fetches := made + 1 } := by
  rw [waitLoop]
  simp only [h]

theorem waitLoop_success (conf : StateChangeConf) (remaining made : Nat)
    (herr : (conf.Refresh made).Err = none)
    (hpending : (conf.Refresh made).State ∉ conf.Pending)
    (htarget : (conf.Refresh made).State ∈ conf.Target ∨
      ((conf.Refresh made).Result = .nil ∧ conf.Target = [])) :
    waitLoop conf (remaining + 1) made =
      { Result := (conf.Refresh made).Result, Err := none, Fetches := made + 1 } := by
  rw [waitLoop]
  simp only [herr, hpending, htarget, if_true, if_false]

theorem waitLoop_unexpected (conf : StateChangeConf) (remaining made : Nat)
    (herr : (conf.Refresh made).Err = none)
    (hpending : (conf.Refresh made).State ∉ conf.Pending)
    (htarget : ¬ ((conf.Refresh made).State ∈ conf.Target ∨
      ((conf.Refresh made).Result = .nil ∧ conf.Target = []))) :
    waitLoop conf (remaining + 1) made =
      { Result := .nil, Err := some (.UnexpectedStateError (conf.Refresh made).State),
        Fetches := made + 1 } := by
  rw [waitLoop]
  simp only [herr, hpending, htarget, if_false]

/-- A poll whose first `N - 1` fetches are pending ends with its `N`-th fetch. -/
theorem WaitForStateContext_reaches (conf : StateChangeConf) (N : Nat) (hN : 1 ≤ N)
    (hT : N ≤ conf.Timeout)
    (hpending : ∀ k, k + 1 < N → (conf.Refresh k).Err = none ∧
      (conf.Refresh k).State ∈ conf.Pending) :
    WaitForStateContext conf = waitLoop conf (conf.Timeout - N + 1) (N - 1) := by
  unfold WaitForStateContext
  have h := waitLoop_pending conf (N - 1) (conf.Timeout - N + 1) 0 (fun k hk => by
    rw [Nat.zero_add]; exact hpending k (by omega))
  rw [Nat.zero_add] at h
  rw [← h]
  congr 1
  omega

theorem status_constants :
    PoolStatusCreating ≠ NumberStatusActive ∧ PoolStatusCreating ≠ [] ∧
      NumberStatusActive ≠ [] ∧ PoolStatusDeleting ≠ [] := by
  decide

/-- A fetch by `statusPhonePool` either hands on a pool with its status, or has no
resource and the empty status. -/
theorem statusPhonePool_cases (conn : Client) (id : GoString) (n : Nat) :
    (∃ p, findPhonePoolById conn n id = .ok p ∧
      statusPhonePool conn id n = { Result := .PoolInformation p, State := p.Status, Err := none }) ∨
    ((statusPhonePool conn id n).Result = .nil ∧ (statusPhonePool conn id n).State = []) := by
  unfold statusPhonePool
  cases h : findPhonePoolById conn n id with
  | error err =>
    right
    by_cases hnf : NotFound err = true <;> simp [hnf]
  | ok p => left; exact ⟨p, rfl, rfl⟩

/-! ## Polling for a status -/

/-- C1: if the status fetch of `waitPhonePoolActive` returns the pending status CREATING
on its first `N - 1` calls and the target status ACTIVE on its `N`-th call, with
`N ≥ 1` fetches fitting into the timeout, then the wait returns the pool observed
on the `N`-th call with a nil error after exactly `N` fetches. -/
theorem waitPhonePoolActive_succeeds_on_Nth_fetch (conn : Client) (id : GoString)
    (timeout N : Nat) (hN : 1 ≤ N) (hT : N ≤ timeout)
    (hpending : ∀ k, k + 1 < N → (statusPhonePool conn id k).Err = none ∧
      (statusPhonePool conn id k).State = PoolStatusCreating)
    (htarget : (statusPhonePool conn id (N - 1)).Err = none ∧
      (statusPhonePool conn id (N - 1)).State = NumberStatusActive) :
    ∃ p, (statusPhonePool conn id (N - 1)).Result = .PoolInformation p ∧
      waitPhonePoolActive conn id timeout = { Output := some p, Err := none, Fetches := N } := by
  have hreach := WaitForStateContext_reaches (phonePoolActiveConf conn id timeout) N hN hT
    (fun k hk => ⟨(hpending k hk).1, by
      show (statusPhonePool conn id k).State ∈ [PoolStatusCreating]
      rw [(hpending k hk).2]; exact List.mem_singleton.mpr rfl⟩)
  rcases statusPhonePool_cases conn id (N - 1) with ⟨p, _, hp⟩ | ⟨_, hstate⟩
  · refine ⟨p, by rw [hp], ?_⟩
    have hstatus : p.Status = NumberStatusActive := by
      have := htarget.2; rw [hp] at this; exact this
    have hlast := waitLoop_success (phonePoolActiveConf conn id timeout) (timeout - N) (N - 1)
      (by show (statusPhonePool conn id (N - 1)).Err = none; exact htarget.1)
      (by
        show (statusPhonePool conn id (N - 1)).State ∉ [PoolStatusCreating]
        rw [htarget.2]
        intro hmem
        exact status_constants.1 (List.mem_singleton.mp hmem).symm)
      (Or.inl (by
        show (statusPhonePool conn id (N - 1)).State ∈ [NumberStatusActive]
        rw [htarget.2]; exact List.mem_singleton.mpr rfl))
    have hfetch : (phonePoolActiveConf conn id timeout).Refresh (N - 1)
        = { Result := .PoolInformation p, State := p.Status, Err := none } := hp
    unfold waitPhonePoolActive
    rw [hreach]
    have htime : (phonePoolActiveConf conn id timeout).Timeout - N + 1 = timeout - N + 1 := rfl
    rw [htime, hlast, hfetch]
    simp only [poolInformationResult]
    congr 1
    omega
  · exfalso
    rw [htarget.2] at hstate
    exact status_constants.2.2.1 hstate

/-- C1, on the fetch sequence CREATING, CREATING, ACTIVE: success on the third call, with
the pool observed by that call; and on a pool that is ACTIVE at once: success on
the first call. -/
theorem waitPhonePoolActive_succeeds_on_Nth_fetch_witness :
    waitPhonePoolActive activeOnThird (str "pool-1") 3 =
        { Output := some activePool, Err := none, Fetches := 3 } ∧
    waitPhonePoolActive alwaysActive (str "pool-1") 3 =
        { Output := some activePool, Err := none, Fetches := 1 } := by
  constructor
  · obtain ⟨p, hp, h⟩ := waitPhonePoolActive_succeeds_on_Nth_fetch activeOnThird (str "pool-1") 3 3
      (by decide) (by decide)
      (fun k hk => by
        have hk2 : k < 2 := by omega
        interval_cases k <;> decide)
      (by decide)
    have hp2 : p = activePool := by
      have h2 : (statusPhonePool activeOnThird (str "pool-1") (3 - 1)).Result
          = .PoolInformation activePool := by decide
      rw [h2] at hp
      exact (Iface.PoolInformation.inj hp).symm
    rw [h, hp2]
  · obtain ⟨p, hp, h⟩ := waitPhonePoolActive_succeeds_on_Nth_fetch alwaysActive (str "pool-1") 3 1
      (by decide) (by decide) (fun k hk => absurd hk (by omega)) (by decide)
    have hp2 : p = activePool := by
      have h2 : (statusPhonePool alwaysActive (str "pool-1") (1 - 1)).Result
          = .PoolInformation activePool := by decide
      rw [h2] at hp
      exact (Iface.PoolInformation.inj hp).symm
    rw [h, hp2]

/-- C2: when the `N`-th status fetch returns a status that is neither pending nor a target
of the wait (for `waitPhonePoolActive` anything other than CREATING and ACTIVE, for
`waitPhonePoolDeleted` any status of an existing pool other than DELETING), the
wait returns an UnexpectedState error for that status and the `N`-th fetch is its
last fetch. -/
theorem wait_unexpected_state_stops (conn : Client) (id : GoString) (timeout N : Nat)
    (hN : 1 ≤ N) (hT : N ≤ timeout)
    (herr : (statusPhonePool conn id (N - 1)).Err = none) :
    ((∀ k, k + 1 < N → (statusPhonePool conn id k).Err = none ∧
          (statusPhonePool conn id k).State = PoolStatusCreating) →
        (statusPhonePool conn id (N - 1)).State ≠ PoolStatusCreating →
        (statusPhonePool conn id (N - 1)).State ≠ NumberStatusActive →
        (waitPhonePoolActive conn id timeout).Err =
            some (.UnexpectedStateError (statusPhonePool conn id (N - 1)).State) ∧
          (waitPhonePoolActive conn id timeout).Fetches = N) ∧
    ((∀ k, k + 1 < N → (statusPhonePool conn id k).Err = none ∧
          (statusPhonePool conn id k).State = PoolStatusDeleting) →
        (statusPhonePool conn id (N - 1)).Result ≠ .nil →
        (statusPhonePool conn id (N - 1)).State ≠ PoolStatusDeleting →
        (waitPhonePoolDeleted conn id timeout).Err =
            some (.UnexpectedStateError (statusPhonePool conn id (N - 1)).State) ∧
          (waitPhonePoolDeleted conn id timeout).Fetches = N) := by
  constructor
  · intro hpending hc ha
    have hreach := WaitForStateContext_reaches (phonePoolActiveConf conn id timeout) N hN hT
      (fun k hk => ⟨(hpending k hk).1, by
        show (statusPhonePool conn id k).State ∈ [PoolStatusCreating]
        rw [(hpending k hk).2]; exact List.mem_singleton.mpr rfl⟩)
    have hlast := waitLoop_unexpected (phonePoolActiveConf conn id timeout) (timeout - N) (N - 1)
      herr
      (by
        show (statusPhonePool conn id (N - 1)).State ∉ [PoolStatusCreating]
        intro hmem; exact hc (List.mem_singleton.mp hmem))
      (by
        show ¬ ((statusPhonePool conn id (N - 1)).State ∈ [NumberStatusActive] ∨
          ((statusPhonePool conn id (N - 1)).Result = .nil ∧ [NumberStatusActive] = []))
        rintro (hmem | ⟨_, hnil⟩)
        · exact ha (List.mem_singleton.mp hmem)
        · exact List.cons_ne_nil _ _ hnil)
    have htime : (phonePoolActiveConf conn id timeout).Timeout - N + 1 = timeout - N + 1 := rfl
    unfold waitPhonePoolActive
    rw [hreach, htime, hlast]
    refine ⟨rfl, ?_⟩
    show N - 1 + 1 = N
    omega
  · intro hpending hres hd
    have hreach := WaitForStateContext_reaches (phonePoolDeletedConf conn id timeout) N hN hT
      (fun k hk => ⟨(hpending k hk).1, by
        show (statusPhonePool conn id k).State ∈ [PoolStatusDeleting]
        rw [(hpending k hk).2]; exact List.mem_singleton.mpr rfl⟩)
    have hlast := waitLoop_unexpected (phonePoolDeletedConf conn id timeout) (timeout - N) (N - 1)
      herr
      (by
        show (statusPhonePool conn id (N - 1)).State ∉ [PoolStatusDeleting]
        intro hmem; exact hd (List.mem_singleton.mp hmem))
      (by
        show ¬ ((statusPhonePool conn id (N - 1)).State ∈ ([] : List GoString) ∨
          ((statusPhonePool conn id (N - 1)).Result = .nil ∧ ([] : List GoString) = []))
        rintro (hmem | ⟨hnil, _⟩)
        · exact List.not_mem_nil _ hmem
        · exact hres hnil)
    have htime : (phonePoolDeletedConf conn id timeout).Timeout - N + 1 = timeout - N + 1 := rfl
    unfold waitPhonePoolDeleted
    rw [hreach, htime, hlast]
    refine ⟨rfl, ?_⟩
    show N - 1 + 1 = N
    omega

/-- C2, on a pool that is DELETING while its activation is awaited, and on a pool that
is CREATING while its deletion is awaited: an UnexpectedState error after one fetch. -/
theorem wait_unexpected_state_stops_witness :
    ((waitPhonePoolActive alwaysDeleting (str "pool-1") 5).Err =
        some (.UnexpectedStateError PoolStatusDeleting) ∧
      (waitPhonePoolActive alwaysDeleting (str "pool-1") 5).Fetches = 1) ∧
    ((waitPhonePoolDeleted alwaysCreating (str "pool-1") 5).Err =
        some (.UnexpectedStateError PoolStatusCreating) ∧
      (waitPhonePoolDeleted alwaysCreating (str "pool-1") 5).Fetches = 1) :=
  ⟨(wait_unexpected_state_stops alwaysDeleting (str "pool-1") 5 1 (by decide) (by decide)
      (by decide)).1 (fun k hk => absurd hk (by omega)) (by decide) (by decide),
   (wait_unexpected_state_stops alwaysCreating (str "pool-1") 5 1 (by decide) (by decide)
      (by decide)).2 (fun k hk => absurd hk (by omega)) (by decide) (by decide)⟩

/-- C3: if every status fetch that fits into the timeout returns the pending status
(CREATING for `waitPhonePoolActive`, DELETING for `waitPhonePoolDeleted`), the wait
returns a Timeout error and no pool once the fetches are used up; and a Timeout
error is never equal to an UnexpectedState error. -/
theorem wait_pending_until_timeout (conn : Client) (id : GoString) (timeout : Nat) :
    ((∀ k, k < timeout → (statusPhonePool conn id k).Err = none ∧
          (statusPhonePool conn id k).State = PoolStatusCreating) →
        waitPhonePoolActive conn id timeout =
          { Output := none, Err := some .TimeoutError, Fetches := timeout }) ∧
    ((∀ k, k < timeout → (statusPhonePool conn id k).Err = none ∧
          (statusPhonePool conn id k).State = PoolStatusDeleting) →
        waitPhonePoolDeleted conn id timeout =
          { Output := none, Err := some .TimeoutError, Fetches := timeout }) ∧
    (∀ s : GoString, Err.TimeoutError ≠ Err.UnexpectedStateError s) := by
  refine ⟨?_, ?_, fun s h => Err.noConfusion h⟩
  · intro hpending
    have h := waitLoop_pending (phonePoolActiveConf conn id timeout) timeout 0 0 (fun k hk => by
      rw [Nat.zero_add]
      exact ⟨(hpending k hk).1, by
        show (statusPhonePool conn id k).State ∈ [PoolStatusCreating]
        rw [(hpending k hk).2]; exact List.mem_singleton.mpr rfl⟩)
    simp only [Nat.zero_add] at h
    unfold waitPhonePoolActive WaitForStateContext
    rw [show (phonePoolActiveConf conn id timeout).Timeout = timeout from rfl, h]
    rfl
  · intro hpending
    have h := waitLoop_pending (phonePoolDeletedConf conn id timeout) timeout 0 0 (fun k hk => by
      rw [Nat.zero_add]
      exact ⟨(hpending k hk).1, by
        show (statusPhonePool conn id k).State ∈ [PoolStatusDeleting]
        rw [(hpending k hk).2]; exact List.mem_singleton.mpr rfl⟩)
    simp only [Nat.zero_add] at h
    unfold waitPhonePoolDeleted WaitForStateContext
    rw [show (phonePoolDeletedConf conn id timeout).Timeout = timeout from rfl, h]
    rfl

/-- C3, on a pool that stays CREATING, resp. DELETING, with room for two fetches. -/
theorem wait_pending_until_timeout_witness :
    waitPhonePoolActive alwaysCreating (str "pool-1") 2 =
        { Output := none, Err := some .TimeoutError, Fetches := 2 } ∧
    waitPhonePoolDeleted alwaysDeleting (str "pool-1") 2 =
        { Output := none, Err := some .TimeoutError, Fetches := 2 } :=
  ⟨(wait_pending_until_timeout alwaysCreating (str "pool-1") 2).1 (fun _ _ => ⟨rfl, rfl⟩),
   (wait_pending_until_timeout alwaysDeleting (str "pool-1") 2).2.1 (fun _ _ => ⟨rfl, rfl⟩)⟩

/-- C4: if the pool lookup of the `N`-th fetch of `waitPhonePoolDeleted` reports NotFound
(the fetches before it having returned DELETING), the wait returns success: no
pool and a nil error. -/
theorem waitPhonePoolDeleted_succeeds_on_NotFound (conn : Client) (id : GoString)
    (timeout N : Nat) (err : Err) (hN : 1 ≤ N) (hT : N ≤ timeout)
    (hpending : ∀ k, k + 1 < N → (statusPhonePool conn id k).Err = none ∧
      (statusPhonePool conn id k).State = PoolStatusDeleting)
    (hlookup : findPhonePoolById conn (N - 1) id = .error err)
    (hnotfound : NotFound err = true) :
    waitPhonePoolDeleted conn id timeout = { Output := none, Err := none, Fetches := N } := by
  have hfetch : statusPhonePool conn id (N - 1) = { Result := .nil, State := [], Err := none } := by
    unfold statusPhonePool
    rw [hlookup]
    simp only [hnotfound, if_true]
  have hreach := WaitForStateContext_reaches (phonePoolDeletedConf conn id timeout) N hN hT
    (fun k hk => ⟨(hpending k hk).1, by
      show (statusPhonePool conn id k).State ∈ [PoolStatusDeleting]
      rw [(hpending k hk).2]; exact List.mem_singleton.mpr rfl⟩)
  have hlast := waitLoop_success (phonePoolDeletedConf conn id timeout) (timeout - N) (N - 1)
    (by show (statusPhonePool conn id (N - 1)).Err = none; rw [hfetch])
    (by
      show (statusPhonePool conn id (N - 1)).State ∉ [PoolStatusDeleting]
      rw [hfetch]
      intro hmem
      exact status_constants.2.2.2 (List.mem_singleton.mp hmem).symm)
    (Or.inr ⟨by show (statusPhonePool conn id (N - 1)).Result = .nil; rw [hfetch], rfl⟩)
  have htime : (phonePoolDeletedConf conn id timeout).Timeout - N + 1 = timeout - N + 1 := rfl
  have hrefresh : (phonePoolDeletedConf conn id timeout).Refresh (N - 1)
      = { Result := .nil, State := [], Err := none } := hfetch
  unfold waitPhonePoolDeleted
  rw [hreach, htime, hlast, hrefresh]
  simp only [poolInformationResult]
  congr 1
  omega

/-- C4, on a pool that is DELETING at the first fetch and not found at the second. -/
theorem waitPhonePoolDeleted_succeeds_on_NotFound_witness :
    waitPhonePoolDeleted goneOnSecond (str "pool-1") 4 =
      { Output := none, Err := none, Fetches := 2 } :=
  waitPhonePoolDeleted_succeeds_on_NotFound goneOnSecond (str "pool-1") 4 2
    (.NotFoundError (.ResourceNotFoundException (str "pool not found")))
    (by decide) (by decide)
    (fun k hk => by
      have hk0 : k = 0 := by omega
      subst hk0
      decide)
    rfl rfl

/-- C5, as stated, fails: when the poll hands back a pool together with an error, the end
of the waits returns both, a resource that is not nil with an error that is not nil. -/
theorem wait_returns_resource_with_error :
    poolInformationResult (.PoolInformation deletingPool)
        (some (.UnexpectedStateError PoolStatusDeleting)) =
      (some deletingPool, some (.UnexpectedStateError PoolStatusDeleting)) ∧
    ¬ ((poolInformationResult (.PoolInformation deletingPool)
          (some (.UnexpectedStateError PoolStatusDeleting))).1 = none ∨
       (poolInformationResult (.PoolInformation deletingPool)
          (some (.UnexpectedStateError PoolStatusDeleting))).2 = none) := by
  decide

/-- C5, amended: both waits return the error of the underlying poll unchanged, together
with the result of the poll when that is a pool and with a nil resource otherwise.
For every outcome of the poll: a nil error gives (resource, nil), a result that is
no pool gives (nil, error), and a pool that comes with an error is returned with it. -/
theorem wait_returns_what_the_poll_returns (conn : Client) (id : GoString) (timeout : Nat) :
    ((waitPhonePoolActive conn id timeout).Output, (waitPhonePoolActive conn id timeout).Err) =
      poolInformationResult (WaitForStateContext (phonePoolActiveConf conn id timeout)).Result
        (WaitForStateContext (phonePoolActiveConf conn id timeout)).Err ∧
    ((waitPhonePoolDeleted conn id timeout).Output, (waitPhonePoolDeleted conn id timeout).Err) =
      poolInformationResult (WaitForStateContext (phonePoolDeletedConf conn id timeout)).Result
        (WaitForStateContext (phonePoolDeletedConf conn id timeout)).Err ∧
    (∀ (outputRaw : Iface) (err : Option Err),
      (poolInformationResult outputRaw err).2 = err ∧
      (∀ p, outputRaw = .PoolInformation p → (poolInformationResult outputRaw err).1 = some p) ∧
      ((∀ p, outputRaw ≠ .PoolInformation p) → (poolInformationResult outputRaw err).1 = none)) := by
  refine ⟨rfl, rfl, ?_⟩
  intro outputRaw err
  cases outputRaw with
  | nil => exact ⟨rfl, fun p h => Iface.noConfusion h, fun _ => rfl⟩
  | PoolInformation q =>
    exact ⟨rfl, fun p h => by rw [Iface.PoolInformation.inj h]; rfl, fun h => absurd rfl (h q)⟩
  | other t => exact ⟨rfl, fun p h => Iface.noConfusion h, fun _ => rfl⟩

/-- C5, amended, on a poll that timed out without a resource, and on one that returned
an active pool. -/
theorem wait_returns_what_the_poll_returns_witness :
    (poolInformationResult .nil (some .TimeoutError)).1 = none ∧
    (poolInformationResult (.PoolInformation activePool) none).1 = some activePool :=
  ⟨(wait_returns_what_the_poll_returns quietClient [] 0).2.2 .nil (some .TimeoutError)
      |>.2.2 (fun _ h => Iface.noConfusion h),
   (wait_returns_what_the_poll_returns quietClient [] 0).2.2 (.PoolInformation activePool) none
      |>.2.1 activePool rfl⟩

theorem findPhonePoolsPages_error (err : SdkError) (post : List (Except SdkError (List PoolInformation)))
    (herr : IsResourceNotFoundException err = false) (pre : List (List PoolInformation)) :
    ∀ output : List PoolInformation,
      findPhonePoolsPages (pre.map Except.ok ++ Except.error err :: post) output
        = .error (.sdk err) := by
  induction pre with
  | nil =>
    intro output
    simp only [List.map_nil, List.nil_append, findPhonePoolsPages, herr]
    rfl
  | cons page pre ih =>
    intro output
    simp only [List.map_cons, List.cons_append, findPhonePoolsPages]
    exact ih (output ++ page)

/-- C6: when a page of the describe call made for the `N`-th fetch fails with an error
`err` that is no ResourceNotFoundException, `findPhonePools` returns `err` as it is
and no pools, the fetch of `statusPhonePool` returns (nil, "", err), and both waits
return `err` with that fetch as their last one. -/
theorem describe_error_is_returned_unchanged (conn : Client) (id : GoString) (timeout N : Nat)
    (err : SdkError) (pre : List (List PoolInformation))
    (post : List (Except SdkError (List PoolInformation)))
    (herr : IsResourceNotFoundException err = false)
    (hpages : conn.DescribePools (N - 1) { PoolIds := [id] }
      = pre.map Except.ok ++ Except.error err :: post)
    (hN : 1 ≤ N) (hT : N ≤ timeout) :
    findPhonePools conn (N - 1) { PoolIds := [id] } = .error (.sdk err) ∧
    statusPhonePool conn id (N - 1) = { Result := .nil, State := [], Err := some (.sdk err) } ∧
    ((∀ k, k + 1 < N → (statusPhonePool conn id k).Err = none ∧
          (statusPhonePool conn id k).State = PoolStatusCreating) →
        waitPhonePoolActive conn id timeout =
          { Output := none, Err := some (.sdk err), Fetches := N }) ∧
    ((∀ k, k + 1 < N → (statusPhonePool conn id k).Err = none ∧
          (statusPhonePool conn id k).State = PoolStatusDeleting) →
        waitPhonePoolDeleted conn id timeout =
          { Output := none, Err := some (.sdk err), Fetches := N }) := by
  have hfind : findPhonePools conn (N - 1) { PoolIds := [id] } = .error (.sdk err) := by
    unfold findPhonePools
    rw [hpages]
    exact findPhonePoolsPages_error err post herr pre []
  have hfetch : statusPhonePool conn id (N - 1)
      = { Result := .nil, State := [], Err := some (.sdk err) } := by
    unfold statusPhonePool findPhonePoolById findPhonePool
    rw [hfind]
    rfl
  refine ⟨hfind, hfetch, ?_, ?_⟩
  · intro hpending
    have hreach := WaitForStateContext_reaches (phonePoolActiveConf conn id timeout) N hN hT
      (fun k hk => ⟨(hpending k hk).1, by
        show (statusPhonePool conn id k).State ∈ [PoolStatusCreating]
        rw [(hpending k hk).2]; exact List.mem_singleton.mpr rfl⟩)
    have hlast := waitLoop_error (phonePoolActiveConf conn id timeout) (timeout - N) (N - 1)
      (.sdk err) (by show (statusPhonePool conn id (N - 1)).Err = some (.sdk err); rw [hfetch])
    have htime : (phonePoolActiveConf conn id timeout).Timeout - N + 1 = timeout - N + 1 := rfl
    unfold waitPhonePoolActive
    rw [hreach, htime, hlast]
    simp only [poolInformationResult]
    congr 1
    omega
  · intro hpending
    have hreach := WaitForStateContext_reaches (phonePoolDeletedConf conn id timeout) N hN hT
      (fun k hk => ⟨(hpending k hk).1, by
        show (statusPhonePool conn id k).State ∈ [PoolStatusDeleting]
        rw [(hpending k hk).2]; exact List.mem_singleton.mpr rfl⟩)
    have hlast := waitLoop_error (phonePoolDeletedConf conn id timeout) (timeout - N) (N - 1)
      (.sdk err) (by show (statusPhonePool conn id (N - 1)).Err = some (.sdk err); rw [hfetch])
    have htime : (phonePoolDeletedConf conn id timeout).Timeout - N + 1 = timeout - N + 1 := rfl
    unfold waitPhonePoolDeleted
    rw [hreach, htime, hlast]
    simp only [poolInformationResult]
    congr 1
    omega

/-- C6, on a describe call whose second page is throttled: one fetch, the error unchanged. -/
theorem describe_error_is_returned_unchanged_witness :
    findPhonePools throttled 0 { PoolIds := [str "pool-1"] }
      = .error (.sdk (.other (str "ThrottlingException"))) ∧
    statusPhonePool throttled (str "pool-1") 0 =
      { Result := .nil, State := [], Err := some (.sdk (.other (str "ThrottlingException"))) } ∧
    waitPhonePoolActive throttled (str "pool-1") 7 =
      { Output := none, Err := some (.sdk (.other (str "ThrottlingException"))), Fetches := 1 } ∧
    waitPhonePoolDeleted throttled (str "pool-1") 7 =
      { Output := none, Err := some (.sdk (.other (str "ThrottlingException"))), Fetches := 1 } :=
  have h := describe_error_is_returned_unchanged throttled (str "pool-1") 7 1
    (.other (str "ThrottlingException")) [[]] [] rfl rfl (by decide) (by decide)
  ⟨h.1, h.2.1, h.2.2.1 (fun k hk => absurd hk (by omega)),
    h.2.2.2 (fun k hk => absurd hk (by omega))⟩

/-- C7: when the pool lookup reports NotFound, the fetch returned by `statusPhonePool`
returns a nil resource, the empty status and a nil error; when the lookup succeeds
with pool `p`, it returns `p`, the string of `p.Status` and a nil error. -/
theorem statusPhonePool_result (conn : Client) (id : GoString) (n : Nat) :
    (∀ err, findPhonePoolById conn n id = .error err → NotFound err = true →
      statusPhonePool conn id n = { Result := .nil, State := [], Err := none }) ∧
    (∀ p, findPhonePoolById conn n id = .ok p →
      statusPhonePool conn id n =
        { Result := .PoolInformation p, State := p.Status, Err := none }) := by
  constructor
  · intro err hlookup hnotfound
    unfold statusPhonePool
    rw [hlookup]
    simp only [hnotfound, if_true]
  · intro p hlookup
    unfold statusPhonePool
    rw [hlookup]

/-- C7, on a pool that is gone at the second lookup and on a pool that is active. -/
theorem statusPhonePool_result_witness :
    statusPhonePool goneOnSecond (str "pool-1") 1 = { Result := .nil, State := [], Err := none } ∧
    statusPhonePool alwaysActive (str "pool-1") 0 =
      { Result := .PoolInformation activePool, State := NumberStatusActive, Err := none } :=
  ⟨(statusPhonePool_result goneOnSecond (str "pool-1") 1).1
      (.NotFoundError (.ResourceNotFoundException (str "pool not found"))) rfl rfl,
   (statusPhonePool_result alwaysActive (str "pool-1") 0).2 activePool rfl⟩

/-! ## Handlers -/

theorem HasError_append (ds es : Diagnostics) : HasError (ds ++ es) = (HasError ds || HasError es) := by
  unfold HasError
  exact List.any_append

/-- C8, at a plan whose first identity is a sender ID and whose second is a phone number,
every remote call succeeding: the derivation of the country code of the phone
number fails, `Create` drops that error, associates the phone number with an empty
country code, adds no diagnostic and sets the state. -/
theorem Create_drops_the_sender_id_error :
    getIsoCountryCodeForSenderIDARN phoneARN =
      some ([], some (.errorString (str "the origination identity is not a sender ID"))) ∧
    (phonePoolResource.Create plainHost (poolOn alwaysActive)
        { Plan := { diags := [], data := mixedPlan } }).map (fun response => response.Diagnostics)
      = some [] ∧
    (phonePoolResource.Create plainHost (poolOn alwaysActive)
        { Plan := { diags := [], data := mixedPlan } }).map (fun response => response.Calls)
      = some
        [ .CreatePool
            { DeletionProtectionEnabled := some false, IsoCountryCode := str "GB"
              OriginationIdentity := senderARN, MessageType := str "TRANSACTIONAL" },
          .DescribePools { PoolIds := [str "pool-1"] },
          .AssociateOriginationIdentity
            { IsoCountryCode := [], OriginationIdentity := phoneARN, PoolId := some (str "pool-1") },
          .UpdatePool
            { DeletionProtectionEnabled := some false, OptOutListName := some (str "Default")
              PoolId := some (str "pool-1"), SelfManagedOptOutsEnabled := some false
              SharedRoutesEnabled := some false, TwoWayChannelArn := none
              TwoWayChannelRole := none, TwoWayEnabled := some false } ] ∧
    (phonePoolResource.Create plainHost (poolOn alwaysActive)
        { Plan := { diags := [], data := mixedPlan } }).map (fun response => response.State.isSome)
      = some true := by
  decide

/-- For every prior state of a phone pool that decodes without error: when the lookup
by id reports NotFound, `Read` removes the resource from the state and adds one
warning and no error diagnostic; when the lookup fails with any other error, `Read`
adds an error diagnostic and leaves the state as it was. -/
theorem phonePool_Read_on_a_failed_lookup (host : Host) (r : phonePoolResource)
    (request : StateRequest phonePoolResourceModel) (err : Err)
    (hdiags : HasError request.State.diags = false)
    (hlookup : findPhonePoolById r.conn 0 request.State.data.ID.ValueString = .error err) :
    (NotFound err = true →
      (r.Read host request).State = none ∧
      (r.Read host request).Diagnostics =
        request.State.diags ++ [.ResourceNotFoundWarning err] ∧
      HasError (r.Read host request).Diagnostics = false) ∧
    (NotFound err = false →
      (r.Read host request).State = some request.State ∧
      (r.Read host request).Diagnostics =
        request.State.diags ++
          [.AddError (str "reading End User Messaging SMS Phone Pool (" ++
            request.State.data.ID.ValueString ++ str ")") err] ∧
      HasError (r.Read host request).Diagnostics = true) := by
  constructor
  · intro hnf
    have hread : r.Read host request =
        { Diagnostics := request.State.diags ++ [.ResourceNotFoundWarning err]
          State := none
          Calls := [.DescribePools { PoolIds := [request.State.data.ID.ValueString] }] } := by
      unfold phonePoolResource.Read
      simp only [hdiags, hlookup, hnf, if_true, Bool.false_eq_true, if_false]
      rfl
    rw [hread]
    refine ⟨rfl, rfl, ?_⟩
    show HasError (request.State.diags ++ [.ResourceNotFoundWarning err]) = false
    rw [HasError_append, hdiags]
    rfl
  · intro hnf
    have hread : r.Read host request =
        { Diagnostics := request.State.diags ++
            [.AddError (str "reading End User Messaging SMS Phone Pool (" ++
              request.State.data.ID.ValueString ++ str ")") err]
          State := some request.State
          Calls := [.DescribePools { PoolIds := [request.State.data.ID.ValueString] }] } := by
      unfold phonePoolResource.Read
      simp only [hdiags, hlookup, hnf, Bool.false_eq_true, if_false]
      rfl
    rw [hread]
    refine ⟨rfl, rfl, ?_⟩
    show HasError (request.State.diags ++ [.AddError _ err]) = true
    rw [HasError_append, hdiags]
    rfl

/-- The `Read` of a phone pool that is gone empties the state with a warning only; on
a throttled lookup it adds an error diagnostic and keeps the state. -/
theorem phonePool_Read_on_a_failed_lookup_example :
    (((poolOn goneClient).Read plainHost poolState).State = none ∧
      HasError ((poolOn goneClient).Read plainHost poolState).Diagnostics = false) ∧
    (((poolOn throttled).Read plainHost poolState).State = some poolState.State ∧
      HasError ((poolOn throttled).Read plainHost poolState).Diagnostics = true) :=
  have gone := (phonePool_Read_on_a_failed_lookup plainHost (poolOn goneClient) poolState
    (.NotFoundError (.ResourceNotFoundException (str "not found"))) rfl rfl).1 rfl
  have other := (phonePool_Read_on_a_failed_lookup plainHost (poolOn throttled) poolState
    (.sdk (.other (str "ThrottlingException"))) rfl rfl).2 rfl
  ⟨⟨gone.1, gone.2.2⟩, ⟨other.1, other.2.2⟩⟩

/-- For every state of a phone pool that decodes without error, `Delete` ends with an
error diagnostic if and only if the remote delete call returns an error that is no
ResourceNotFoundException; after a ResourceNotFoundException, as after a successful
call, no diagnostic is added. -/
theorem phonePool_Delete_error_iff (r : phonePoolResource)
    (request : StateRequest phonePoolResourceModel)
    (hdiags : HasError request.State.diags = false) :
    (HasError (r.Delete request).Diagnostics = true ↔
      ∃ err, r.conn.DeletePool { PoolId := request.State.data.ID.ValueStringPointer } = some err ∧
        IsResourceNotFoundException err = false) ∧
    (∀ err, r.conn.DeletePool { PoolId := request.State.data.ID.ValueStringPointer } = some err →
      IsResourceNotFoundException err = true →
        (r.Delete request).Diagnostics = request.State.diags) := by
  unfold phonePoolResource.Delete
  simp only [hdiags, Bool.false_eq_true, if_false]
  cases hcall : r.conn.DeletePool { PoolId := request.State.data.ID.ValueStringPointer } with
  | none =>
    refine ⟨⟨fun h => ?_, fun ⟨err, h, _⟩ => Option.noConfusion h⟩, fun err h => Option.noConfusion h⟩
    simp only [Response.call, hdiags, Bool.false_eq_true] at h
  | some err =>
    cases hnf : IsResourceNotFoundException err with
    | true =>
      refine ⟨⟨fun h => ?_, fun ⟨err2, h, h2⟩ => ?_⟩, fun _ _ _ => ?_⟩
      · simp only [hnf, Response.call, if_true, hdiags, Bool.false_eq_true] at h
      · rw [← Option.some.inj h, hnf] at h2
        exact Bool.noConfusion h2
      · simp only [hnf, Response.call, if_true]
    | false =>
      refine ⟨⟨fun _ => ⟨err, rfl, hnf⟩, fun _ => ?_⟩, fun err2 h h2 => ?_⟩
      · simp only [hnf, Response.call, Response.AddError, Bool.false_eq_true, if_false]
        rw [HasError_append, hdiags]
        rfl
      · rw [← Option.some.inj h, hnf] at h2
        exact Bool.noConfusion h2

/-- The `Delete` of a phone pool ends with an error diagnostic on a throttled delete
call and without any diagnostic when the pool is already gone. -/
theorem phonePool_Delete_error_iff_example :
    HasError ((poolOn throttled).Delete poolState).Diagnostics = true ∧
    ((poolOn goneClient).Delete poolState).Diagnostics = [] :=
  ⟨(phonePool_Delete_error_iff (poolOn throttled) poolState rfl).1.mpr
      ⟨.other (str "ThrottlingException"), rfl, rfl⟩,
   (phonePool_Delete_error_iff (poolOn goneClient) poolState rfl).2
      (.ResourceNotFoundException (str "not found")) rfl rfl⟩

/-! ## Lookups that find nothing -/

theorem findPhonePoolsPages_notFound (err : SdkError)
    (post : List (Except SdkError (List PoolInformation)))
    (herr : IsResourceNotFoundException err = true) (pre : List (List PoolInformation)) :
    ∀ output : List PoolInformation,
      findPhonePoolsPages (pre.map Except.ok ++ Except.error err :: post) output
        = .error (.NotFoundError err) := by
  induction pre with
  | nil =>
    intro output
    simp only [List.map_nil, List.nil_append, findPhonePoolsPages, herr]
    rfl
  | cons page pre ih =>
    intro output
    simp only [List.map_cons, List.cons_append, findPhonePoolsPages]
    exact ih (output ++ page)

/-- C11: if a page of the DescribePools call raises ResourceNotFoundException (the pages
before it having been delivered), `findPhonePoolById` returns no pool but the
`retry.NotFoundError` that wraps the original error; this error is classified as
NotFound, and the destroy check therefore passes over the resource to the next
one instead of reporting it. -/
theorem findPhonePoolById_reports_NotFound (conn : Client) (id : GoString) (n : Nat)
    (err : SdkError) (pre : List (List PoolInformation))
    (post : List (Except SdkError (List PoolInformation)))
    (herr : IsResourceNotFoundException err = true)
    (hpages : conn.DescribePools n { PoolIds := [id] }
      = pre.map Except.ok ++ Except.error err :: post) :
    findPhonePoolById conn n id = .error (.NotFoundError err) ∧
    NotFound (.NotFoundError err) = true ∧
    (∀ rest : List ResourceState,
      testAccCheckPhonePoolDestroy conn
          ({ ResourceType := str "aws_pinpointsmsvoicev2_configuration_set", ID := id } :: rest) n
        = testAccCheckPhonePoolDestroy conn rest (n + 1)) := by
  have hfind : findPhonePoolById conn n id = .error (.NotFoundError err) := by
    unfold findPhonePoolById findPhonePool findPhonePools
    rw [hpages, findPhonePoolsPages_notFound err post herr pre []]
  refine ⟨hfind, rfl, ?_⟩
  intro rest
  rw [testAccCheckPhonePoolDestroy]
  simp only [ne_eq, not_true_eq_false, if_false, hfind, NotFound, if_true]

/-- C11, on a pool that is gone: the lookup reports NotFound and the destroy check of a
state with that one resource returns nil. -/
theorem findPhonePoolById_reports_NotFound_witness :
    findPhonePoolById goneClient 0 (str "pool-1")
      = .error (.NotFoundError (.ResourceNotFoundException (str "not found"))) ∧
    testAccCheckPhonePoolDestroy goneClient
      [{ ResourceType := str "aws_pinpointsmsvoicev2_configuration_set", ID := str "pool-1" }] 0
      = none :=
  have h := findPhonePoolById_reports_NotFound goneClient (str "pool-1") 0
    (.ResourceNotFoundException (str "not found")) [] [] rfl rfl
  ⟨h.1, (h.2.2 []).trans rfl⟩

/-! ## Sender IDs -/

theorem startsWith_iff (s : GoString) :
    ∀ sub : GoString, startsWith s sub = true ↔ ∃ post, s = sub ++ post := by
  induction s with
  | nil =>
    intro sub
    cases sub with
    | nil => exact ⟨fun _ => ⟨[], rfl⟩, fun _ => rfl⟩
    | cons b sub =>
      constructor
      · intro h; simp [startsWith] at h
      · rintro ⟨post, h⟩; simp at h
  | cons a s ih =>
    intro sub
    cases sub with
    | nil => exact ⟨fun _ => ⟨a :: s, rfl⟩, fun _ => rfl⟩
    | cons b sub =>
      simp only [startsWith, Bool.and_eq_true, beq_iff_eq, ih sub, List.cons_append,
        List.cons.injEq]
      constructor
      · rintro ⟨hab, post, hs⟩; exact ⟨post, hab, hs⟩
      · rintro ⟨post, hab, hs⟩; exact ⟨hab, post, hs⟩

theorem Contains_iff (sub : GoString) :
    ∀ s : GoString, Contains s sub = true ↔ ∃ pre post, s = pre ++ sub ++ post := by
  intro s
  induction s with
  | nil =>
    simp only [Contains, startsWith_iff]
    constructor
    · rintro ⟨post, h⟩; exact ⟨[], post, h⟩
    · rintro ⟨pre, post, h⟩
      have hpre : pre = [] := by
        cases pre with
        | nil => rfl
        | cons a pre => simp at h
      subst hpre
      exact ⟨post, h⟩
  | cons a s ih =>
    simp only [Contains, Bool.or_eq_true, startsWith_iff, ih]
    constructor
    · rintro (⟨post, h⟩ | ⟨pre, post, h⟩)
      · exact ⟨[], post, h⟩
      · exact ⟨a :: pre, post, by rw [h]; rfl⟩
    · rintro ⟨pre, post, h⟩
      cases pre with
      | nil => exact Or.inl ⟨post, h⟩
      | cons b pre =>
        simp only [List.cons_append, List.cons.injEq] at h
        exact Or.inr ⟨pre, post, h.2⟩

theorem sender_id_length (s : GoString) (h : isOriginationIdentitityASenderID s = true) :
    11 ≤ s.length := by
  obtain ⟨pre, post, hs⟩ := (Contains_iff (str ":sender-id/") s).mp h
  rw [hs, List.length_append, List.length_append]
  have : (str ":sender-id/").length = 11 := by decide
  omega

/-- C12: for every string `s`, `isOriginationIdentitityASenderID s` is true if and only if
the bytes of ":sender-id/" occur in `s`, that is, `s` is some string, then
":sender-id/", then some string. -/
theorem isOriginationIdentitityASenderID_iff (s : GoString) :
    isOriginationIdentitityASenderID s = true ↔
      ∃ pre post : GoString, s = pre ++ str ":sender-id/" ++ post :=
  Contains_iff (str ":sender-id/") s

/-- C13: for every string `s`: if `s` contains ":sender-id/", then
`getIsoCountryCodeForSenderIDARN s` returns the last two bytes of `s` (there are
two) with a nil error; otherwise it returns the empty string and an error. -/
theorem getIsoCountryCodeForSenderIDARN_result (s : GoString) :
    ((∃ pre post : GoString, s = pre ++ str ":sender-id/" ++ post) →
      getIsoCountryCodeForSenderIDARN s = some (s.drop (s.length - 2), none) ∧
        (s.drop (s.length - 2)).length = 2) ∧
    ((¬ ∃ pre post : GoString, s = pre ++ str ":sender-id/" ++ post) →
      getIsoCountryCodeForSenderIDARN s =
        some ([], some (.errorString (str "the origination identity is not a sender ID")))) := by
  constructor
  · intro h
    have hs : isOriginationIdentitityASenderID s = true := (Contains_iff (str ":sender-id/") s).mpr h
    have hlen := sender_id_length s hs
    refine ⟨?_, ?_⟩
    · unfold getIsoCountryCodeForSenderIDARN
      simp only [hs, Bool.not_true, Bool.false_eq_true, if_false]
      rw [if_neg (by omega)]
    · rw [List.length_drop]
      omega
  · intro h
    have hs : isOriginationIdentitityASenderID s = false := by
      cases hc : isOriginationIdentitityASenderID s with
      | false => rfl
      | true => exact absurd ((Contains_iff (str ":sender-id/") s).mp hc) h
    unfold getIsoCountryCodeForSenderIDARN
    simp only [hs, Bool.not_false, if_true]

/-- C13, on the ARN of a sender ID for GB and on the ARN of a phone number. -/
theorem getIsoCountryCodeForSenderIDARN_result_witness :
    getIsoCountryCodeForSenderIDARN senderARN = some (str "GB", none) ∧
    getIsoCountryCodeForSenderIDARN phoneARN =
      some ([], some (.errorString (str "the origination identity is not a sender ID"))) :=
  ⟨((getIsoCountryCodeForSenderIDARN_result senderARN).1
      ⟨str "arn:aws:sms-voice:us-east-1:123456789012", str "MYSENDER/GB", by decide⟩).1.trans
      (by decide),
   (getIsoCountryCodeForSenderIDARN_result phoneARN).2
      (fun h => by
        have hc := (Contains_iff (str ":sender-id/") phoneARN).mpr h
        exact absurd hc (by decide))⟩

theorem getIsoCountryCodeForSenderIDARN_total (s : GoString) :
    ∃ code err, getIsoCountryCodeForSenderIDARN s = some (code, err) := by
  unfold getIsoCountryCodeForSenderIDARN
  cases hs : isOriginationIdentitityASenderID s with
  | false => exact ⟨[], some (.errorString (str "the origination identity is not a sender ID")), by simp⟩
  | true =>
    have hlen := sender_id_length s hs
    refine ⟨s.drop (s.length - 2), none, ?_⟩
    simp only [Bool.not_true, Bool.false_eq_true, if_false]
    rw [if_neg (by omega)]


/-! ## The calls of Create -/

theorem associateInputs_append (cs ds : List Call) :
    associateInputs (cs ++ ds) = associateInputs cs ++ associateInputs ds := by
  unfold associateInputs
  exact List.filterMap_append _ _ _

theorem createPoolInputs_append (cs ds : List Call) :
    createPoolInputs (cs ++ ds) = createPoolInputs cs ++ createPoolInputs ds := by
  unfold createPoolInputs
  exact List.filterMap_append _ _ _

theorem associateOriginationIdentities_success (conn : Client) (data : phonePoolResourceModel)
    (create : GoString)
    (hassoc : ∀ input, conn.AssociateOriginationIdentity input = none)
    (hphone : ∀ id, ∃ code, conn.findPhoneNumberByID id = .ok { IsoCountryCode := some code }) :
    ∀ (l : List GoString) (response : Response phonePoolResourceModel),
      ∃ response2,
        associateOriginationIdentities conn data create l response = some (true, response2) ∧
        associateInputs response2.Calls =
          associateInputs response.Calls ++
            (l.filter (fun oi => decide (oi ≠ create))).map (fun oi =>
              { IsoCountryCode := associateCountryCode conn create oi
                OriginationIdentity := oi
                PoolId := data.ID.ValueStringPointer }) ∧
        createPoolInputs response2.Calls = createPoolInputs response.Calls := by
  intro l
  induction l with
  | nil =>
    intro response
    exact ⟨response, rfl, by simp, rfl⟩
  | cons oi rest ih =>
    intro response
    rw [associateOriginationIdentities]
    by_cases hne : oi = create
    · obtain ⟨response2, h1, h2, h3⟩ := ih response
      refine ⟨response2, ?_, ?_, h3⟩
      · simp only [ne_eq, hne, not_true_eq_false, if_false]
        rw [← hne]; rw [← hne] at h1; exact h1
      · rw [h2]
        simp [List.filter_cons, hne]
    · simp only [ne_eq, hne, not_false_eq_true, if_true]
      cases hs : isOriginationIdentitityASenderID create with
      | true =>
        obtain ⟨code, err, hget⟩ := getIsoCountryCodeForSenderIDARN_total oi
        have hcode : associateCountryCode conn create oi = code := by
          simp only [associateCountryCode, hs, if_true, hget]
        simp only [if_true, hget, hassoc]
        obtain ⟨response2, h1, h2, h3⟩ := ih (response.call
          [.AssociateOriginationIdentity
            { IsoCountryCode := code, OriginationIdentity := oi,
              PoolId := data.ID.ValueStringPointer }])
        refine ⟨response2, h1, ?_, ?_⟩
        · rw [h2]
          simp [Response.call, associateInputs_append, associateInputs, List.filter_cons, hne, hcode]
        · rw [h3]
          simp [Response.call, createPoolInputs_append, createPoolInputs]
      | false =>
        obtain ⟨code, hfind⟩ := hphone oi
        have hcode : associateCountryCode conn create oi = code := by
          simp only [associateCountryCode, hs, Bool.false_eq_true, if_false, hfind]
        simp only [Bool.false_eq_true, if_false, getIsoCountryCodeForPhoneARN, hfind, hassoc]
        obtain ⟨response2, h1, h2, h3⟩ := ih ((response.call [.findPhoneNumberByID oi]).call
          [.AssociateOriginationIdentity
            { IsoCountryCode := code, OriginationIdentity := oi,
              PoolId := data.ID.ValueStringPointer }])
        refine ⟨response2, h1, ?_, ?_⟩
        · rw [h2]
          simp [Response.call, associateInputs_append, associateInputs, List.filter_cons, hne, hcode]
        · rw [h3]
          simp [Response.call, createPoolInputs_append, createPoolInputs]

theorem associateInputs_replicate_describe (n : Nat) (input : DescribePoolsInput) :
    associateInputs (List.replicate n (.DescribePools input)) = [] := by
  induction n with
  | zero => rfl
  | succ n ih => exact ih

theorem createPoolInputs_replicate_describe (n : Nat) (input : DescribePoolsInput) :
    createPoolInputs (List.replicate n (.DescribePools input)) = [] := by
  induction n with
  | zero => rfl
  | succ n ih => exact ih

theorem createAfterWait_calls (host : Host) (conn : Client) (data : phonePoolResourceModel)
    (create : GoString) (out : Option PoolInformation)
    (response : Response phonePoolResourceModel)
    (hassoc : ∀ input, conn.AssociateOriginationIdentity input = none)
    (hphone : ∀ id, ∃ code, conn.findPhoneNumberByID id = .ok { IsoCountryCode := some code }) :
    ∃ response3,
      createAfterWait host conn data create out response = some response3 ∧
      associateInputs response3.Calls =
        associateInputs response.Calls ++
          (data.OriginationIdentities.filter (fun oi => decide (oi ≠ create))).map (fun oi =>
            { IsoCountryCode := associateCountryCode conn create oi
              OriginationIdentity := oi
              PoolId := data.ID.ValueStringPointer }) ∧
      createPoolInputs response3.Calls = createPoolInputs response.Calls := by
  obtain ⟨response2, h1, h2, h3⟩ :=
    associateOriginationIdentities_success conn data create hassoc hphone
      data.OriginationIdentities response
  unfold createAfterWait
  rw [h1]
  simp only []
  rw [← h2, ← h3]
  split
  · rename_i updated response4 hupd
    refine ⟨response4, rfl, ?_, ?_⟩
    all_goals
      split at hupd
      · split at hupd
        · cases hupd
          simp [Response.call, Response.AddError, associateInputs_append, associateInputs,
            createPoolInputs_append, createPoolInputs]
        · cases hupd
      · cases hupd
  · rename_i updated response4 hupd
    have hcalls : associateInputs response4.Calls = associateInputs response2.Calls ∧
        createPoolInputs response4.Calls = createPoolInputs response2.Calls := by
      split at hupd
      · split at hupd
        · cases hupd
        · cases hupd
          simp [Response.call, associateInputs_append, associateInputs,
            createPoolInputs_append, createPoolInputs]
      · cases hupd
        exact ⟨rfl, rfl⟩
    split
    · exact ⟨_, rfl, hcalls.1, hcalls.2⟩
    · exact ⟨_, rfl, hcalls.1, hcalls.2⟩

theorem Create_calls (host : Host) (r : phonePoolResource) (request : CreateRequest)
    (first : GoString) (rest : List GoString)
    (hdiags : HasError request.Plan.diags = false)
    (hlist : request.Plan.data.OriginationIdentities = first :: rest)
    (hcreate : ∀ input, ∃ output, r.conn.CreatePool input = .ok output)
    (hwait : ∀ id,
      (waitPhonePoolActive r.conn id (r.CreateTimeout request.Plan.data.Timeouts)).Err = none)
    (hassoc : ∀ input, r.conn.AssociateOriginationIdentity input = none)
    (hphone : ∀ id, ∃ code, r.conn.findPhoneNumberByID id = .ok { IsoCountryCode := some code }) :
    ∃ response input output,
      phonePoolResource.Create host r request = some response ∧
      r.conn.CreatePool input = .ok output ∧
      input.OriginationIdentity = first ∧
      createPoolInputs response.Calls = [input] ∧
      associateInputs response.Calls =
        (rest.filter (fun oi => decide (oi ≠ first))).map (fun oi =>
          { IsoCountryCode := associateCountryCode r.conn first oi
            OriginationIdentity := oi
            PoolId := some (ToString output.PoolId) }) := by
  have hwith : ∀ (code : GoString) (response : Response phonePoolResourceModel),
      associateInputs response.Calls = [] → createPoolInputs response.Calls = [] →
      ∃ response3 input output,
        createWithCountryCode host r request.Plan.data first code response = some response3 ∧
        r.conn.CreatePool input = .ok output ∧
        input.OriginationIdentity = first ∧
        createPoolInputs response3.Calls = [input] ∧
        associateInputs response3.Calls =
          (rest.filter (fun oi => decide (oi ≠ first))).map (fun oi =>
            { IsoCountryCode := associateCountryCode r.conn first oi
              OriginationIdentity := oi
              PoolId := some (ToString output.PoolId) }) := by
    intro code response ha hc
    obtain ⟨output, hout⟩ := hcreate
      { DeletionProtectionEnabled := FromFramework request.Plan.data.DeletionProtectionEnabled
        IsoCountryCode := code
        OriginationIdentity := first
        MessageType := request.Plan.data.MessageType.ValueString }
    unfold createWithCountryCode
    simp only [hout, hwait]
    obtain ⟨response3, h1, h2, h3⟩ := createAfterWait_calls host r.conn
      { request.Plan.data with
        ID := .known (ToString output.PoolId)
        PhonePoolARN := StringToFramework output.PoolArn }
      first
      (waitPhonePoolActive r.conn (ToString output.PoolId)
        (r.CreateTimeout request.Plan.data.Timeouts)).Output
      ((response.call [.CreatePool
          { DeletionProtectionEnabled := FromFramework request.Plan.data.DeletionProtectionEnabled
            IsoCountryCode := code
            OriginationIdentity := first
            MessageType := request.Plan.data.MessageType.ValueString }]).call
        (List.replicate
          (waitPhonePoolActive r.conn (ToString output.PoolId)
            (r.CreateTimeout request.Plan.data.Timeouts)).Fetches
          (.DescribePools { PoolIds := [ToString output.PoolId] })))
      hassoc hphone
    refine ⟨response3, _, output, h1, hout, rfl, ?_, ?_⟩
    · rw [h3]
      show createPoolInputs (response.Calls ++ [.CreatePool _] ++ List.replicate _ _) = _
      rw [createPoolInputs_append, createPoolInputs_append, hc,
        createPoolInputs_replicate_describe]
      rfl
    · rw [h2]
      show associateInputs (response.Calls ++ [.CreatePool _] ++ List.replicate _ _) ++
        List.map _ (List.filter _ request.Plan.data.OriginationIdentities) = _
      rw [associateInputs_append, associateInputs_append, ha,
        associateInputs_replicate_describe, hlist]
      simp only [List.filter_cons, ne_eq, not_true_eq_false, decide_False, Bool.false_eq_true,
        if_false]
      rfl
  unfold phonePoolResource.Create
  simp only [hdiags, hlist, Bool.false_eq_true, if_false]
  split
  · obtain ⟨code, err, hget⟩ := getIsoCountryCodeForSenderIDARN_total first
    simp only [hget]
    exact hwith code _ rfl rfl
  · obtain ⟨code, hfind⟩ := hphone first
    simp only [getIsoCountryCodeForPhoneARN, hfind]
    exact hwith code _ rfl rfl

/-- The routing of the strings of the elements.  For every plan whose
`OriginationIdentities`, the strings `Elements()[i].String()`, are a list without
repetition with `first` in front, in a `Create` in which the remote calls succeed:
the one `CreatePool` call carries the string `first`, `first` is never passed to
`AssociateOriginationIdentity`, and the strings passed to
`AssociateOriginationIdentity` are the other strings in their order, without
repetition, every one with the id of the new pool. -/
theorem Create_associates_every_other_identity (host : Host) (r : phonePoolResource)
    (request : CreateRequest) (first : GoString) (rest : List GoString)
    (hdiags : HasError request.Plan.diags = false)
    (hlist : request.Plan.data.OriginationIdentities = first :: rest)
    (hset : (first :: rest).Nodup)
    (hcreate : ∀ input, ∃ output, r.conn.CreatePool input = .ok output)
    (hwait : ∀ id,
      (waitPhonePoolActive r.conn id (r.CreateTimeout request.Plan.data.Timeouts)).Err = none)
    (hassoc : ∀ input, r.conn.AssociateOriginationIdentity input = none)
    (hphone : ∀ id, ∃ code, r.conn.findPhoneNumberByID id = .ok { IsoCountryCode := some code }) :
    ∃ response input output,
      phonePoolResource.Create host r request = some response ∧
      r.conn.CreatePool input = .ok output ∧
      createPoolInputs response.Calls = [input] ∧
      input.OriginationIdentity = first ∧
      (associateInputs response.Calls).map (fun i => (i.OriginationIdentity, i.PoolId)) =
        rest.map (fun oi => (oi, some (ToString output.PoolId))) ∧
      first ∉ (associateInputs response.Calls).map (fun i => i.OriginationIdentity) ∧
      ((associateInputs response.Calls).map (fun i => i.OriginationIdentity)).Nodup := by
  obtain ⟨response, input, output, h1, h2, h3, h4, h5⟩ :=
    Create_calls host r request first rest hdiags hlist hcreate hwait hassoc hphone
  have hfirst : first ∉ rest := (List.nodup_cons.mp hset).1
  have hrest : rest.Nodup := (List.nodup_cons.mp hset).2
  have hfilter : rest.filter (fun oi => decide (oi ≠ first)) = rest := by
    apply List.filter_eq_self.mpr
    intro oi hoi
    exact decide_eq_true (fun h => hfirst (h ▸ hoi))
  rw [hfilter] at h5
  have hids : (associateInputs response.Calls).map (fun i => i.OriginationIdentity) = rest := by
    rw [h5, List.map_map]
    exact List.map_id' rest
  refine ⟨response, input, output, h1, h2, h4, h3, ?_, ?_, ?_⟩
  · rw [h5, List.map_map]
    rfl
  · rw [hids]; exact hfirst
  · rw [hids]; exact hrest

/-- The routing on the plan of the configured sender ID and phone number: the quoted
string of the sender ID goes into `CreatePool`, the quoted string of the phone
number into the one `AssociateOriginationIdentity` call. -/
theorem Create_associates_every_other_identity_example :
    ∃ response,
      phonePoolResource.Create plainHost (poolOn alwaysActive)
        { Plan := { diags := [], data := configuredPlan } } = some response ∧
      (createPoolInputs response.Calls).map (fun i => i.OriginationIdentity) =
        [[34] ++ senderARN ++ [34]] ∧
      (associateInputs response.Calls).map (fun i => i.OriginationIdentity) =
        [[34] ++ phoneARN ++ [34]] := by
  obtain ⟨response, input, output, h1, _, h3, h4, h5, _, _⟩ :=
    Create_associates_every_other_identity plainHost (poolOn alwaysActive)
      { Plan := { diags := [], data := configuredPlan } }
      ([34] ++ senderARN ++ [34]) [[34] ++ phoneARN ++ [34]]
      rfl (by decide) (by decide) (fun _ => ⟨_, rfl⟩) (fun _ => rfl) (fun _ => rfl)
      (fun _ => ⟨str "US", rfl⟩)
  refine ⟨response, h1, ?_, ?_⟩
  · rw [h3]; exact congrArg (fun x => [x]) h4
  · have h := congrArg (List.map Prod.fst) h5
    rw [List.map_map, List.map_map] at h
    exact h

set_option maxRecDepth 100000 in
/-- C14, at the plan of the configured set of a sender ID and a phone number, every remote
call succeeding: the strings that `Create` reads with `String()` are the ARNs
between double quotes, so `CreatePool` is sent the quoted string of the sender ID
(with the country code `B"`, its last two bytes) and `AssociateOriginationIdentity`
the quoted string of the phone number; neither configured ARN is sent to any call. -/
theorem Create_sends_the_quoted_strings :
    configuredPlan.OriginationIdentities =
      [[34] ++ senderARN ++ [34], [34] ++ phoneARN ++ [34]] ∧
    (phonePoolResource.Create plainHost (poolOn alwaysActive)
        { Plan := { diags := [], data := configuredPlan } }).map
          (fun response => createPoolInputs response.Calls)
      = some
        [{ DeletionProtectionEnabled := some false, IsoCountryCode := [66, 34]
           OriginationIdentity := [34] ++ senderARN ++ [34]
           MessageType := str "TRANSACTIONAL" }] ∧
    (phonePoolResource.Create plainHost (poolOn alwaysActive)
        { Plan := { diags := [], data := configuredPlan } }).map
          (fun response => (associateInputs response.Calls).map (fun i => i.OriginationIdentity))
      = some [[34] ++ phoneARN ++ [34]] ∧
    [34] ++ senderARN ++ [34] ≠ senderARN ∧
    [34] ++ phoneARN ++ [34] ≠ phoneARN ∧
    (phonePoolResource.Create plainHost (poolOn alwaysActive)
        { Plan := { diags := [], data := configuredPlan } }).map
          (fun response =>
            (createPoolInputs response.Calls).any
                (fun i => decide (i.OriginationIdentity = senderARN)) ||
              (associateInputs response.Calls).any
                (fun i => decide (i.OriginationIdentity = phoneARN)))
      = some false := by
  decide

/-- C15, at two plans that mix a sender ID and a phone number.  With the sender ID first,
the phone number is associated with the empty country code, although its lookup
returns US.  With the phone number first, the sender ID is looked up as a phone
number; that lookup fails, `Create` stops with an error diagnostic and the sender
ID, whose ARN ends in GB, is never associated. -/
theorem Create_country_code_follows_the_first_identity :
    getIsoCountryCodeForPhoneARN phoneOnlyLookup phoneARN = some (.ok (str "US")) ∧
    (phonePoolResource.Create plainHost (poolOn phoneOnlyLookup)
        { Plan := { diags := [], data := mixedPlan } }).map
          (fun response => (associateInputs response.Calls, response.Diagnostics))
      = some
        ([{ IsoCountryCode := [], OriginationIdentity := phoneARN,
            PoolId := some (str "pool-1") }], []) ∧
    getIsoCountryCodeForSenderIDARN senderARN = some (str "GB", none) ∧
    (phonePoolResource.Create plainHost (poolOn phoneOnlyLookup)
        { Plan := { diags := [], data := mixedPlanPhoneFirst } }).map
          (fun response => (associateInputs response.Calls, response.Diagnostics))
      = some
        ([], [.AddError (str "Error getting ISO country code for phone ARN")
          .EmptyResultError]) :=
  ⟨rfl, by decide, by decide, by decide⟩

/-! ## Update -/

theorem FromFramework_eq_some {α : Type} (a : Attr α) (v : α) :
    FromFramework a = some v ↔ a = .known v := by
  cases a with
  | null => exact ⟨fun h => Option.noConfusion h, fun h => Attr.noConfusion h⟩
  | unknown => exact ⟨fun h => Option.noConfusion h, fun h => Attr.noConfusion h⟩
  | known w =>
    exact ⟨fun h => by rw [Option.some.inj h], fun h => by rw [Attr.known.inj h]; rfl⟩

/-- C16: for every plan and prior state that decode without error, `Update` calls
`UpdatePool` if and only if plan and state differ in one of id,
deletion_protection_enabled, opt_out_list_name, self_managed_opt_outs_enabled,
shared_routes_enabled, two_way_channel_arn, two_way_channel_role,
two_way_channel_enabled; it then makes exactly that one call, with the values of
the plan: every field of the input is the known value of the plan's attribute and
is nil when the plan's attribute is null or unknown.  A plan that differs from the state in origination_identities only causes
no remote call.  The state is set to the plan when no call is made or the call
succeeds; when `UpdatePool` fails the state is not set (it stays the prior state)
and an error diagnostic is added. -/
theorem Update_calls_UpdatePool_iff (r : phonePoolResource) (request : UpdateRequest)
    (hplan : HasError request.Plan.diags = false)
    (hstate : HasError request.State.diags = false) :
    ((∃ input, Call.UpdatePool input ∈ (r.Update request).Calls) ↔
      (request.Plan.data.ID ≠ request.State.data.ID ∨
        request.Plan.data.DeletionProtectionEnabled ≠ request.State.data.DeletionProtectionEnabled ∨
        request.Plan.data.OptOutListName ≠ request.State.data.OptOutListName ∨
        request.Plan.data.SelfManagedOptOutsEnabled ≠ request.State.data.SelfManagedOptOutsEnabled ∨
        request.Plan.data.SharedRoutesEnabled ≠ request.State.data.SharedRoutesEnabled ∨
        request.Plan.data.TwoWayChannelARN ≠ request.State.data.TwoWayChannelARN ∨
        request.Plan.data.TwoWayChannelRole ≠ request.State.data.TwoWayChannelRole ∨
        request.Plan.data.TwoWayEnabled ≠ request.State.data.TwoWayEnabled)) ∧
    ((r.Update request).Calls = [.UpdatePool (updatePoolInput request.Plan.data)] ∨
      (r.Update request).Calls = []) ∧
    (∀ input, Call.UpdatePool input ∈ (r.Update request).Calls →
      (∀ v, input.DeletionProtectionEnabled = some v ↔
        request.Plan.data.DeletionProtectionEnabled = .known v) ∧
      (∀ v, input.OptOutListName = some v ↔ request.Plan.data.OptOutListName = .known v) ∧
      (∀ v, input.PoolId = some v ↔ request.Plan.data.ID = .known v) ∧
      (∀ v, input.SelfManagedOptOutsEnabled = some v ↔
        request.Plan.data.SelfManagedOptOutsEnabled = .known v) ∧
      (∀ v, input.SharedRoutesEnabled = some v ↔
        request.Plan.data.SharedRoutesEnabled = .known v) ∧
      (∀ v, input.TwoWayChannelArn = some v ↔ request.Plan.data.TwoWayChannelARN = .known v) ∧
      (∀ v, input.TwoWayChannelRole = some v ↔ request.Plan.data.TwoWayChannelRole = .known v) ∧
      (∀ v, input.TwoWayEnabled = some v ↔ request.Plan.data.TwoWayEnabled = .known v)) ∧
    (request.Plan.data =
        { request.State.data with
          OriginationIdentities := request.Plan.data.OriginationIdentities } →
      (r.Update request).Calls = []) ∧
    ((r.Update request).Calls = [] ∨
        r.conn.UpdatePool (updatePoolInput request.Plan.data) = none →
      (r.Update request).State = some { diags := [], data := request.Plan.data } ∧
        (r.Update request).Diagnostics = request.Plan.diags ++ request.State.diags) ∧
    (∀ err, (r.Update request).Calls ≠ [] →
      r.conn.UpdatePool (updatePoolInput request.Plan.data) = some err →
      (r.Update request).State = some request.State ∧
        (r.Update request).Diagnostics =
          request.Plan.diags ++ request.State.diags ++
            [.AddError (str "updating End User Messaging Phone Pool (" ++
              request.Plan.data.ID.ValueString ++ str ")") (.sdk err)] ∧
        HasError (r.Update request).Diagnostics = true) := by
  have hboth : HasError (request.Plan.diags ++ request.State.diags) = false := by
    rw [HasError_append, hplan, hstate]; rfl
  have hfields : ∀ input, input = updatePoolInput request.Plan.data →
      (∀ v, input.DeletionProtectionEnabled = some v ↔
        request.Plan.data.DeletionProtectionEnabled = .known v) ∧
      (∀ v, input.OptOutListName = some v ↔ request.Plan.data.OptOutListName = .known v) ∧
      (∀ v, input.PoolId = some v ↔ request.Plan.data.ID = .known v) ∧
      (∀ v, input.SelfManagedOptOutsEnabled = some v ↔
        request.Plan.data.SelfManagedOptOutsEnabled = .known v) ∧
      (∀ v, input.SharedRoutesEnabled = some v ↔
        request.Plan.data.SharedRoutesEnabled = .known v) ∧
      (∀ v, input.TwoWayChannelArn = some v ↔ request.Plan.data.TwoWayChannelARN = .known v) ∧
      (∀ v, input.TwoWayChannelRole = some v ↔ request.Plan.data.TwoWayChannelRole = .known v) ∧
      (∀ v, input.TwoWayEnabled = some v ↔ request.Plan.data.TwoWayEnabled = .known v) := by
    intro input hinput
    subst hinput
    exact ⟨fun v => FromFramework_eq_some _ v, fun v => FromFramework_eq_some _ v,
      fun v => FromFramework_eq_some _ v, fun v => FromFramework_eq_some _ v,
      fun v => FromFramework_eq_some _ v, fun v => FromFramework_eq_some _ v,
      fun v => FromFramework_eq_some _ v, fun v => FromFramework_eq_some _ v⟩
  have hsingle : ∀ input, Call.UpdatePool input ∈
      [Call.UpdatePool (updatePoolInput request.Plan.data)] →
      input = updatePoolInput request.Plan.data := by
    intro input h
    exact Call.UpdatePool.inj (List.mem_singleton.mp h)
  by_cases hdiff :
      (request.Plan.data.ID ≠ request.State.data.ID ∨
        request.Plan.data.DeletionProtectionEnabled ≠ request.State.data.DeletionProtectionEnabled ∨
        request.Plan.data.OptOutListName ≠ request.State.data.OptOutListName ∨
        request.Plan.data.SelfManagedOptOutsEnabled ≠ request.State.data.SelfManagedOptOutsEnabled ∨
        request.Plan.data.SharedRoutesEnabled ≠ request.State.data.SharedRoutesEnabled ∨
        request.Plan.data.TwoWayChannelARN ≠ request.State.data.TwoWayChannelARN ∨
        request.Plan.data.TwoWayChannelRole ≠ request.State.data.TwoWayChannelRole ∨
        request.Plan.data.TwoWayEnabled ≠ request.State.data.TwoWayEnabled)
  · have hcond : (!request.Plan.data.DeletionProtectionEnabled.Equal
            request.State.data.DeletionProtectionEnabled ||
          !request.Plan.data.OptOutListName.Equal request.State.data.OptOutListName ||
          !request.Plan.data.ID.Equal request.State.data.ID ||
          !request.Plan.data.SelfManagedOptOutsEnabled.Equal
            request.State.data.SelfManagedOptOutsEnabled ||
          !request.Plan.data.SharedRoutesEnabled.Equal request.State.data.SharedRoutesEnabled ||
          !request.Plan.data.TwoWayChannelARN.Equal request.State.data.TwoWayChannelARN ||
          !request.Plan.data.TwoWayChannelRole.Equal request.State.data.TwoWayChannelRole ||
          !request.Plan.data.TwoWayEnabled.Equal request.State.data.TwoWayEnabled) = true := by
      simp only [Attr.Equal, Bool.or_eq_true, Bool.not_eq_true', decide_eq_false_iff_not]
      tauto
    cases hcall : r.conn.UpdatePool (updatePoolInput request.Plan.data) with
    | none =>
      have hupd : r.Update request =
          { Diagnostics := request.Plan.diags ++ request.State.diags
            State := some { diags := [], data := request.Plan.data }
            Calls := [.UpdatePool (updatePoolInput request.Plan.data)] } := by
        unfold phonePoolResource.Update
        simp only [hplan, Response.Append, hboth, hcond, hcall, Bool.false_eq_true, if_false,
          if_true]
        rfl
      rw [hupd]
      refine ⟨⟨fun _ => hdiff, fun _ => ⟨_, List.mem_singleton.mpr rfl⟩⟩, Or.inl rfl,
        fun input h => hfields input (hsingle input h), ?_,
        fun _ => ⟨rfl, rfl⟩, fun err _ h => Option.noConfusion h⟩
      intro hsame
      exfalso
      rw [hsame] at hdiff
      simp at hdiff
    | some err =>
      have hupd : r.Update request =
          { Diagnostics := request.Plan.diags ++ request.State.diags ++
              [.AddError (str "updating End User Messaging Phone Pool (" ++
                request.Plan.data.ID.ValueString ++ str ")") (.sdk err)]
            State := some request.State
            Calls := [.UpdatePool (updatePoolInput request.Plan.data)] } := by
        unfold phonePoolResource.Update
        simp only [hplan, Response.Append, hboth, hcond, hcall, Bool.false_eq_true, if_false,
          if_true]
        rfl
      rw [hupd]
      refine ⟨⟨fun _ => hdiff, fun _ => ⟨_, List.mem_singleton.mpr rfl⟩⟩, Or.inl rfl,
        fun input h => hfields input (hsingle input h), ?_, ?_, ?_⟩
      · intro hsame
        exfalso
        rw [hsame] at hdiff
        simp at hdiff
      · rintro (h | h)
        · exact absurd h (List.cons_ne_nil _ _)
        · exact Option.noConfusion h
      · intro err2 _ h
        rw [← Option.some.inj h]
        refine ⟨rfl, rfl, ?_⟩
        show HasError (request.Plan.diags ++ request.State.diags ++ [.AddError _ _]) = true
        rw [HasError_append, hboth]
        rfl
  · have hcond : (!request.Plan.data.DeletionProtectionEnabled.Equal
            request.State.data.DeletionProtectionEnabled ||
          !request.Plan.data.OptOutListName.Equal request.State.data.OptOutListName ||
          !request.Plan.data.ID.Equal request.State.data.ID ||
          !request.Plan.data.SelfManagedOptOutsEnabled.Equal
            request.State.data.SelfManagedOptOutsEnabled ||
          !request.Plan.data.SharedRoutesEnabled.Equal request.State.data.SharedRoutesEnabled ||
          !request.Plan.data.TwoWayChannelARN.Equal request.State.data.TwoWayChannelARN ||
          !request.Plan.data.TwoWayChannelRole.Equal request.State.data.TwoWayChannelRole ||
          !request.Plan.data.TwoWayEnabled.Equal request.State.data.TwoWayEnabled) = false := by
      rw [Bool.eq_false_iff]
      intro h
      apply hdiff
      simp only [Attr.Equal, Bool.or_eq_true, Bool.not_eq_true', decide_eq_false_iff_not] at h
      tauto
    have hupd : r.Update request =
        { Diagnostics := request.Plan.diags ++ request.State.diags
          State := some { diags := [], data := request.Plan.data }
          Calls := [] } := by
      unfold phonePoolResource.Update
      simp only [hplan, Response.Append, hboth, hcond, Bool.false_eq_true, if_false]
      rfl
    rw [hupd]
    refine ⟨⟨fun ⟨_, h⟩ => absurd h (List.not_mem_nil _), fun h => absurd h hdiff⟩, Or.inr rfl,
      fun input h => absurd h (List.not_mem_nil _),
      fun _ => rfl, fun _ => ⟨rfl, rfl⟩, fun err h _ => absurd rfl h⟩

/-- C16, on a plan that turns deletion protection on: one call, whose input holds the
values of the plan field by field; the state is the plan when the call succeeds and
the prior state with an error when it is throttled.  On a plan that changes the
origination identities only: no call, the state is the plan. -/
theorem Update_calls_UpdatePool_iff_witness :
    ((poolOn quietClient).Update protectedUpdate).Calls =
        [.UpdatePool
          { DeletionProtectionEnabled := some true
            OptOutListName := some (str "Default")
            PoolId := some (str "pool-1")
            SelfManagedOptOutsEnabled := some false
            SharedRoutesEnabled := some false
            TwoWayChannelArn := none
            TwoWayChannelRole := none
            TwoWayEnabled := some false }] ∧
    ((poolOn quietClient).Update protectedUpdate).State =
        some { diags := [], data := protectedPlan } ∧
    ((poolOn updateThrottled).Update protectedUpdate).State = some poolState.State ∧
    HasError ((poolOn updateThrottled).Update protectedUpdate).Diagnostics = true ∧
    ((poolOn quietClient).Update otherIdentitiesUpdate).Calls = [] ∧
    ((poolOn quietClient).Update otherIdentitiesUpdate).State =
        some { diags := [], data := otherIdentitiesPlan } :=
  have ok := Update_calls_UpdatePool_iff (poolOn quietClient) protectedUpdate rfl rfl
  have failed := Update_calls_UpdatePool_iff (poolOn updateThrottled) protectedUpdate rfl rfl
  have same := Update_calls_UpdatePool_iff (poolOn quietClient) otherIdentitiesUpdate rfl rfl
  have hcalled : ((poolOn quietClient).Update protectedUpdate).Calls =
      [.UpdatePool (updatePoolInput protectedPlan)] :=
    ok.2.1.resolve_right (by decide)
  have hnone := same.2.2.2.1 (by decide)
  ⟨hcalled.trans (by decide), (ok.2.2.2.2.1 (Or.inr rfl)).1,
    (failed.2.2.2.2.2 (.other (str "ThrottlingException")) (by decide) rfl).1,
    (failed.2.2.2.2.2 (.other (str "ThrottlingException")) (by decide) rfl).2.2,
    hnone, (same.2.2.2.2.1 (Or.inl hnone)).1⟩

/-! ## Index safety -/

theorem associateOriginationIdentities_no_panic (conn : Client) (data : phonePoolResourceModel)
    (create : GoString)
    (hphone : ∀ id out, conn.findPhoneNumberByID id = .ok out → out.IsoCountryCode ≠ none) :
    ∀ (l : List GoString) (response : Response phonePoolResourceModel),
      associateOriginationIdentities conn data create l response ≠ none := by
  intro l
  induction l with
  | nil => intro response; simp [associateOriginationIdentities]
  | cons oi rest ih =>
    intro response
    rw [associateOriginationIdentities]
    by_cases hne : oi = create
    · simp only [ne_eq, hne, not_true_eq_false, if_false]
      exact ih response
    · simp only [ne_eq, hne, not_false_eq_true, if_true]
      cases hs : isOriginationIdentitityASenderID create with
      | true =>
        obtain ⟨code, err, hget⟩ := getIsoCountryCodeForSenderIDARN_total oi
        simp only [if_true, hget]
        cases hcall : conn.AssociateOriginationIdentity
            { IsoCountryCode := code, OriginationIdentity := oi,
              PoolId := data.ID.ValueStringPointer } with
        | none => exact ih _
        | some e => simp
      | false =>
        simp only [Bool.false_eq_true, if_false]
        unfold getIsoCountryCodeForPhoneARN
        cases hfind : conn.findPhoneNumberByID oi with
        | error e => simp
        | ok out =>
          cases hcode : out.IsoCountryCode with
          | none => exact absurd hcode (hphone oi out hfind)
          | some code =>
            simp only [hcode]
            cases hcall : conn.AssociateOriginationIdentity
                { IsoCountryCode := code, OriginationIdentity := oi,
                  PoolId := data.ID.ValueStringPointer } with
            | none => exact ih _
            | some e => simp

theorem createAfterWait_no_panic (host : Host) (conn : Client) (data : phonePoolResourceModel)
    (create : GoString) (out : Option PoolInformation)
    (response : Response phonePoolResourceModel)
    (hphone : ∀ id out, conn.findPhoneNumberByID id = .ok out → out.IsoCountryCode ≠ none) :
    createAfterWait host conn data create out response ≠ none := by
  unfold createAfterWait
  have hloop := associateOriginationIdentities_no_panic conn data create hphone
    data.OriginationIdentities response
  cases hl : associateOriginationIdentities conn data create data.OriginationIdentities response with
  | none => exact absurd hl hloop
  | some res =>
    obtain ⟨goOn, response2⟩ := res
    cases goOn with
    | false => simp
    | true =>
      simp only []
      split
      · simp
      · split <;> simp

theorem createWithCountryCode_no_panic (host : Host) (r : phonePoolResource)
    (data : phonePoolResourceModel) (create code : GoString)
    (response : Response phonePoolResourceModel)
    (hphone : ∀ id out, r.conn.findPhoneNumberByID id = .ok out → out.IsoCountryCode ≠ none) :
    createWithCountryCode host r data create code response ≠ none := by
  unfold createWithCountryCode
  simp only []
  split
  · simp
  · split
    · simp
    · exact createAfterWait_no_panic host r.conn _ create _ _ hphone

/-- C17: under the precondition of the schema that `origination_identities` has at least
one element, `Elements()[0]` in `Create` is in range, and the slice in
`getIsoCountryCodeForSenderIDARN` is never out of range: the function returns for
every string, a string that contains ":sender-id/" has at least 11 bytes, and
`Create` on a plan with at least one identity ends without a run-time panic
whenever no phone number lookup returns a nil country code (the one other source of
a panic).  Without an element, `Create` panics on the index. -/
theorem Create_index_safety (host : Host) (r : phonePoolResource) (request : CreateRequest) :
    ((phonePoolResource.Schema providerNames).Attributes.lookup (str "origination_identities")).map
        (fun a => a.SizeAtLeast) = some (some 1) ∧
    (∀ s : GoString, getIsoCountryCodeForSenderIDARN s ≠ none) ∧
    (∀ s : GoString, isOriginationIdentitityASenderID s = true → 11 ≤ s.length) ∧
    (1 ≤ request.Plan.data.OriginationIdentities.length →
      (∀ id out, r.conn.findPhoneNumberByID id = .ok out → out.IsoCountryCode ≠ none) →
      phonePoolResource.Create host r request ≠ none) ∧
    (request.Plan.data.OriginationIdentities.length = 0 → HasError request.Plan.diags = false →
      phonePoolResource.Create host r request = none) := by
  refine ⟨by decide, ?_, sender_id_length, ?_, ?_⟩
  · intro s h
    obtain ⟨code, err, hget⟩ := getIsoCountryCodeForSenderIDARN_total s
    rw [hget] at h
    exact Option.noConfusion h
  · intro hlen hphone
    unfold phonePoolResource.Create
    simp only []
    split
    · simp
    · cases hl : request.Plan.data.OriginationIdentities with
      | nil => rw [hl] at hlen; simp at hlen
      | cons first rest =>
        simp only []
        split
        · obtain ⟨code, err, hget⟩ := getIsoCountryCodeForSenderIDARN_total first
          simp only [hget]
          exact createWithCountryCode_no_panic host r _ first code _ hphone
        · unfold getIsoCountryCodeForPhoneARN
          cases hfind : r.conn.findPhoneNumberByID first with
          | error e => simp
          | ok out =>
            cases hcode : out.IsoCountryCode with
            | none => exact absurd hcode (hphone first out hfind)
            | some code =>
              simp only [hcode]
              exact createWithCountryCode_no_panic host r _ first code _ hphone
  · intro hlen hdiags
    have hl : request.Plan.data.OriginationIdentities = [] := List.length_eq_zero.mp hlen
    unfold phonePoolResource.Create
    simp only [hdiags, hl, Bool.false_eq_true, if_false]

/-- C17, on the plan of a sender ID and a phone number: `Create` ends without a panic. -/
theorem Create_index_safety_witness :
    phonePoolResource.Create plainHost (poolOn alwaysActive)
        { Plan := { diags := [], data := mixedPlan } } ≠ none ∧
    phonePoolResource.Create plainHost (poolOn alwaysActive)
        { Plan := { diags := [], data := { mixedPlan with OriginationIdentities := [] } } } = none :=
  ⟨(Create_index_safety plainHost (poolOn alwaysActive)
      { Plan := { diags := [], data := mixedPlan } }).2.2.2.1 (by decide)
      (fun id out h => by
        have hout : out = { IsoCountryCode := some (str "US") } := (Except.ok.inj h).symm
        rw [hout]
        exact fun hc => Option.noConfusion hc),
   (Create_index_safety plainHost (poolOn alwaysActive)
      { Plan := { diags := [], data := { mixedPlan with OriginationIdentities := [] } } }).2.2.2.2
      rfl rfl⟩


/-! ## Schemas and models -/

/-- C18, evaluated: the names declared by the schema of the phone pool are the `tfsdk`
tags of `phonePoolResourceModel`; the schema of the protect configuration declares
`account_default`, for which `protectConfigurationResourceModel` has no field, so
the two sets differ there, whatever the names of the package `names` are. -/
theorem schema_names_and_model_tags :
    sameNames (phonePoolResource.Schema providerNames).declared phonePoolResourceModelTags
      = true ∧
    (∀ names : Names,
      (protectConfigurationResource.Schema names).declared.contains (str "account_default")
        = true) ∧
    protectConfigurationResourceModelTags.contains (str "account_default") = false ∧
    (∀ names : Names,
      sameNames (protectConfigurationResource.Schema names).declared
        protectConfigurationResourceModelTags = false) ∧
    protectConfigurationResourceModelTags.all
      (fun x => (protectConfigurationResource.Schema providerNames).declared.contains x) = true := by
  refine ⟨by decide, fun names => ?_, by decide, fun names => ?_, by decide⟩
  · simp [protectConfigurationResource.Schema, Schema.declared]
  · have hmem : str "account_default" ∈ (protectConfigurationResource.Schema names).declared := by
      simp [protectConfigurationResource.Schema, Schema.declared]
    have hout : protectConfigurationResourceModelTags.contains (str "account_default") = false := by
      decide
    unfold sameNames
    rw [Bool.and_eq_false_iff]
    left
    rw [List.all_eq_false]
    exact ⟨str "account_default", hmem, by rw [hout]; exact Bool.false_ne_true⟩

/-! ## The protect configuration cannot be decoded -/

theorem protect_names_differ (names : Names) :
    sameNames (protectConfigurationResource.Schema names).declared
      protectConfigurationResourceModelTags = false := by
  have hmem : str "account_default" ∈ (protectConfigurationResource.Schema names).declared := by
    simp [protectConfigurationResource.Schema, Schema.declared]
  have hout : protectConfigurationResourceModelTags.contains (str "account_default") = false := by
    decide
  unfold sameNames
  rw [Bool.and_eq_false_iff]
  left
  rw [List.all_eq_false]
  exact ⟨str "account_default", hmem, by rw [hout]; exact Bool.false_ne_true⟩

theorem phonePool_state_decodes (data : phonePoolResourceModel) :
    (phonePoolRequest providerNames data).State.diags = [] := by
  show getDiagnostics (phonePoolResource.Schema providerNames) phonePoolResourceModelTags = []
  unfold getDiagnostics
  rw [show sameNames (phonePoolResource.Schema providerNames).declared
    phonePoolResourceModelTags = true by decide]
  rfl

theorem protect_state_has_error (names : Names) (data : protectConfigurationResourceModel) :
    HasError (protectConfigurationRequest names data).State.diags = true := by
  show HasError (getDiagnostics (protectConfigurationResource.Schema names)
    protectConfigurationResourceModelTags) = true
  unfold getDiagnostics
  rw [protect_names_differ names]
  rfl

/-- C9, at any prior state of a protect configuration whose remote resource is gone: the
lookup by id reports NotFound, but `Read` ends at the error diagnostic of decoding
the state (the schema declares `account_default`, the model struct has no field
for it): it makes no lookup, leaves the resource in the state and returns an error
diagnostic instead of a warning only.  A state of a phone pool decodes without
diagnostics. -/
theorem protect_Read_keeps_a_gone_resource (host : Host) (names : Names)
    (data : protectConfigurationResourceModel) :
    (∀ id, findProtectConfigurationByID goneClient 0 id =
        .error (.NotFoundError (.ResourceNotFoundException (str "not found")))) ∧
    NotFound (.NotFoundError (.ResourceNotFoundException (str "not found"))) = true ∧
    (protectConfigurationResource.Read host { conn := goneClient }
        (protectConfigurationRequest names data)).State
      = some (protectConfigurationRequest names data).State ∧
    (protectConfigurationResource.Read host { conn := goneClient }
        (protectConfigurationRequest names data)).Calls = [] ∧
    HasError (protectConfigurationResource.Read host { conn := goneClient }
        (protectConfigurationRequest names data)).Diagnostics = true ∧
    (∀ pool, (phonePoolRequest providerNames pool).State.diags = []) := by
  have hread : protectConfigurationResource.Read host { conn := goneClient }
      (protectConfigurationRequest names data) =
        { Diagnostics := (protectConfigurationRequest names data).State.diags
          State := some (protectConfigurationRequest names data).State
          Calls := [] } := by
    unfold protectConfigurationResource.Read
    simp only [protect_state_has_error names data, if_true]
  rw [hread]
  exact ⟨fun _ => rfl, rfl, rfl, rfl, protect_state_has_error names data,
    phonePool_state_decodes⟩

/-- C10, at any state of a protect configuration: `Delete` ends with the error diagnostic
of decoding the state and makes no delete call, also on a client whose delete call
would succeed; so there is an error diagnostic although no delete call has
returned an error. -/
theorem protect_Delete_fails_without_a_call (rp : protectConfigurationResource)
    (names : Names) (data : protectConfigurationResourceModel) :
    HasError (rp.Delete (protectConfigurationRequest names data)).Diagnostics = true ∧
    (rp.Delete (protectConfigurationRequest names data)).Calls = [] ∧
    (∀ input, quietClient.DeleteProtectConfiguration input = none) ∧
    HasError (protectConfigurationResource.Delete { conn := quietClient }
      (protectConfigurationRequest providerNames protectData)).Diagnostics = true := by
  have hdelete : ∀ rp2 : protectConfigurationResource,
      rp2.Delete (protectConfigurationRequest names data) =
        { Diagnostics := (protectConfigurationRequest names data).State.diags
          State := some (protectConfigurationRequest names data).State
          Calls := [] } := by
    intro rp2
    unfold protectConfigurationResource.Delete
    simp only [protect_state_has_error names data, if_true]
  rw [hdelete rp]
  refine ⟨protect_state_has_error names data, rfl, fun _ => rfl, ?_⟩
  have h2 : protectConfigurationResource.Delete { conn := quietClient }
      (protectConfigurationRequest providerNames protectData) =
        { Diagnostics := (protectConfigurationRequest providerNames protectData).State.diags
          State := some (protectConfigurationRequest providerNames protectData).State
          Calls := [] } := by
    unfold protectConfigurationResource.Delete
    simp only [protect_state_has_error providerNames protectData, if_true]
  rw [h2]
  exact protect_state_has_error providerNames protectData

end PinpointSMSVoiceV2
